import Mathlib

/-!
Verification of the opencode-damage-control decision engine.

This file gives a shallow embedding of the engine implemented in
src/patterns.ts (pattern matching, protected-path classification, shell
operation classifiers) and the configuration overlay engine (validateConfig,
mergeConfigs, applyConfig), and proves the specification claims about them.

Modelling conventions:
  - JavaScript strings are Lean Strings (lists of Chars).
  - The single process-wide environment value process.env.HOME (defaulting to
    the empty string when unset) is passed as an explicit "home" parameter to
    every function that reads it.
  - JavaScript regular expressions are interpreted by a small executable
    regex interpreter (parser plus backtracking matcher) covering exactly the
    dialect used by the rule data: literals, escapes, character classes,
    ranges, anchors, word boundaries, dot, alternation, grouping, negative
    lookahead and the greedy quantifiers star, plus, question mark.  The
    matcher tries alternatives left to right and quantifiers greedily, which
    reproduces the JavaScript (leftmost, backtracking-order) match.
  - The star matcher only takes iterations that consume at least one
    character; this is language-equivalent to the JavaScript semantics, which
    terminates a repetition when an iteration matches the empty string.
-/

set_option maxRecDepth 4096

namespace DamageControl

/-! ## Character predicates (JavaScript semantics) -/

/-- Line terminators, the characters not matched by an unflagged dot. -/
def lineTerm (c : Char) : Bool :=
  c == '\n' || c == '\r' || c == '\u2028' || c == '\u2029'

/-- White space as matched by the JavaScript regex class backslash-s. -/
def jsSpace (c : Char) : Bool :=
  c == ' ' || c == '\t' || c == '\n' || c == '\x0b' || c == '\x0c' || c == '\r' ||
  c == '\u00a0' || c == '\u1680' || ('\u2000' ≤ c && c ≤ '\u200a') ||
  c == '\u2028' || c == '\u2029' || c == '\u202f' || c == '\u205f' ||
  c == '\u3000' || c == '\ufeff'

/-- Word characters as matched by the JavaScript regex class backslash-w. -/
def jsWord (c : Char) : Bool :=
  ('a' ≤ c && c ≤ 'z') || ('A' ≤ c && c ≤ 'Z') || ('0' ≤ c && c ≤ '9') || c == '_'

/-- Digits as matched by the JavaScript regex class backslash-d. -/
def jsDigit (c : Char) : Bool :=
  '0' ≤ c && c ≤ '9'

/-! ## String helpers (JavaScript semantics) -/

/-- Decides whether the first list is an initial segment of the second. -/
def startsWithL : List Char → List Char → Bool
  | [], _ => true
  | _ :: _, [] => false
  | a :: as, b :: bs => a == b && startsWithL as bs

/-- Substring test on character lists; used to embed String.prototype.includes. -/
def containsSub (hay needle : List Char) : Bool :=
  if startsWithL needle hay then true
  else
    match hay with
    | [] => false
    | _ :: t => containsSub t needle

/-- Embedding of the JavaScript call hay.includes(needle). -/
def jsIncludes (hay needle : String) : Bool :=
  containsSub hay.data needle.data

/-- Replace the first occurrence of pat, if any, by rep.  An empty pat matches
at position zero, as in JavaScript. -/
def replaceFirstAux (pat rep : List Char) : List Char → Option (List Char)
  | [] => if pat.isEmpty then some rep else none
  | c :: rest =>
    if startsWithL pat (c :: rest) then some (rep ++ (c :: rest).drop pat.length)
    else (replaceFirstAux pat rep rest).map (c :: ·)

/-- Embedding of the JavaScript call s.replace(pat, rep) with a plain string
pattern: only the first occurrence is replaced.  (The replacement strings used
by the engine contain no dollar-sign substitution patterns.) -/
def replaceFirst (s pat rep : String) : String :=
  String.mk ((replaceFirstAux pat.data rep.data s.data).getD s.data)

/-- Worker for splitting on runs of white space.  The flag records whether
the scanner is inside a white-space run (so that the run is collapsed into a
single separator); acc accumulates the current field in reverse. -/
def wsSplitGo (inWs : Bool) (acc : List Char) : List Char → List (List Char)
  | [] => [acc.reverse]
  | c :: rest =>
    if inWs then
      if jsSpace c then wsSplitGo true [] rest
      else wsSplitGo false [c] rest
    else
      if jsSpace c then acc.reverse :: wsSplitGo true [] rest
      else wsSplitGo false (c :: acc) rest

/-- Split a string on runs of white space, embedding s.split along a
white-space-plus regex: empty leading and trailing fields are kept, interior
runs collapse to a single separator. -/
def wsSplit (s : String) : List (List Char) :=
  wsSplitGo false [] s.data

/-- Embedding of the basename helper of patterns.ts: trim trailing slashes,
then keep everything after the last slash. -/
def basename (filePath : String) : String :=
  let trimmed := (filePath.data.reverse.dropWhile (· == '/')).reverse
  String.mk ((trimmed.reverse.takeWhile (· != '/')).reverse)

/-! ## A small JavaScript regular-expression interpreter

The rule data of patterns.ts consists of regex source strings; the code
compiles each with new RegExp(..) and calls test or match.  The interpreter
below embeds that dialect: literals, identity and class escapes, character
classes with ranges and negation, dot, anchors, word boundaries, grouping,
alternation, negative lookahead, and the greedy quantifiers. -/

/-- One member of a character class. -/
inductive ClsItem where
  | single (c : Char)
  | range (lo hi : Char)
  | space
  | word
  | digit
  | notSpace
  | notWord
  | notDigit
deriving Repr, DecidableEq

/-- Abstract syntax of the supported regex dialect.  Plus and question-mark
quantifiers are desugared by the parser. -/
inductive Re where
  | eps
  | lit (c : Char)
  | dot
  | cls (neg : Bool) (items : List ClsItem)
  | bol
  | eol
  | wordB
  | seq (a b : Re)
  | alt (a b : Re)
  | star (r : Re)
  | nlook (r : Re)
deriving Repr, DecidableEq

/-- Meaning of a backslash escape inside a character class. -/
def escCls : Char → ClsItem
  | 's' => .space
  | 'S' => .notSpace
  | 'w' => .word
  | 'W' => .notWord
  | 'd' => .digit
  | 'D' => .notDigit
  | 'n' => .single '\n'
  | 'r' => .single '\r'
  | 't' => .single '\t'
  | 'f' => .single '\x0c'
  | 'v' => .single '\x0b'
  | 'b' => .single '\x08'
  | '0' => .single '\x00'
  | c => .single c

/-- Meaning of a backslash escape outside a character class. -/
def escAtom : Char → Re
  | 's' => Re.cls false [ClsItem.space]
  | 'S' => Re.cls true [ClsItem.space]
  | 'w' => Re.cls false [ClsItem.word]
  | 'W' => Re.cls true [ClsItem.word]
  | 'd' => Re.cls false [ClsItem.digit]
  | 'D' => Re.cls true [ClsItem.digit]
  | 'b' => Re.wordB
  | 'n' => Re.lit '\n'
  | 'r' => Re.lit '\r'
  | 't' => Re.lit '\t'
  | 'f' => Re.lit '\x0c'
  | 'v' => Re.lit '\x0b'
  | '0' => Re.lit '\x00'
  | c => Re.lit c

/-- Parse one class atom (a single character or an escape). -/
def parseClsAtom : List Char → Option (ClsItem × List Char)
  | '\\' :: c :: rest => some (escCls c, rest)
  | ']' :: _ => none
  | [] => none
  | c :: rest => some (ClsItem.single c, rest)

/-- Parse the members of a character class up to the closing bracket. -/
def parseClsItems (fuel : Nat) (s : List Char) : Option (List ClsItem × List Char) :=
  match fuel with
  | 0 => none
  | fuel + 1 =>
    match s with
    | ']' :: rest => some ([], rest)
    | _ =>
      match parseClsAtom s with
      | none => none
      | some (it, rest) =>
        match it, rest with
        | ClsItem.single lo, '-' :: c2 :: rest2 =>
          if c2 == ']' then
            (parseClsItems fuel rest).map (fun p => (it :: p.1, p.2))
          else
            match parseClsAtom (c2 :: rest2) with
            | some (ClsItem.single hi, rest3) =>
              (parseClsItems fuel rest3).map (fun p => (ClsItem.range lo hi :: p.1, p.2))
            | _ => none
        | _, _ => (parseClsItems fuel rest).map (fun p => (it :: p.1, p.2))

/-- Grammar level being parsed: alternation, concatenation, or single atom. -/
inductive PMode where
  | palt
  | pseq
  | patom
deriving Repr, DecidableEq

/-- Recursive-descent parser for the regex dialect, written as one function
that is structurally recursive on its fuel so the kernel can evaluate it.
Mode palt parses an alternation (the lowest-precedence level), pseq a
concatenation of quantified atoms stopping at a bar, a closing parenthesis or
the end of input, and patom a single atom: group, negative lookahead, class,
escape, anchor, dot or literal character. -/
def parseRe (fuel : Nat) (mode : PMode) (s : List Char) : Option (Re × List Char) :=
  match fuel with
  | 0 => none
  | fuel + 1 =>
    match mode with
    | PMode.palt =>
      (parseRe fuel PMode.pseq s).bind fun p =>
        match p.2 with
        | '|' :: rest2 =>
          (parseRe fuel PMode.palt rest2).map fun q => (Re.alt p.1 q.1, q.2)
        | _ => some p
    | PMode.pseq =>
      match s with
      | [] => some (Re.eps, [])
      | '|' :: _ => some (Re.eps, s)
      | ')' :: _ => some (Re.eps, s)
      | _ =>
        (parseRe fuel PMode.patom s).bind fun p =>
          let q : Re × List Char :=
            match p.2 with
            | '*' :: r2 => (Re.star p.1, r2)
            | '+' :: r2 => (Re.seq p.1 (Re.star p.1), r2)
            | '?' :: r2 => (Re.alt p.1 Re.eps, r2)
            | _ => p
          (parseRe fuel PMode.pseq q.2).map fun t => (Re.seq q.1 t.1, t.2)
    | PMode.patom =>
      match s with
      | '(' :: '?' :: ':' :: rest =>
        (parseRe fuel PMode.palt rest).bind fun p =>
          match p.2 with
          | ')' :: rest3 => some (p.1, rest3)
          | _ => none
      | '(' :: '?' :: '!' :: rest =>
        (parseRe fuel PMode.palt rest).bind fun p =>
          match p.2 with
          | ')' :: rest3 => some (Re.nlook p.1, rest3)
          | _ => none
      | '(' :: rest =>
        (parseRe fuel PMode.palt rest).bind fun p =>
          match p.2 with
          | ')' :: rest3 => some (p.1, rest3)
          | _ => none
      | '[' :: '^' :: rest =>
        (parseClsItems (fuel + 1) rest).map fun p => (Re.cls true p.1, p.2)
      | '[' :: rest =>
        (parseClsItems (fuel + 1) rest).map fun p => (Re.cls false p.1, p.2)
      | '\\' :: c :: rest => some (escAtom c, rest)
      | '\\' :: [] => none
      | '^' :: rest => some (Re.bol, rest)
      | '$' :: rest => some (Re.eol, rest)
      | '.' :: rest => some (Re.dot, rest)
      | '*' :: _ => none
      | '+' :: _ => none
      | '?' :: _ => none
      | [] => none
      | c :: rest => some (Re.lit c, rest)

/-- Parse a full regex source string; fails on syntax the dialect does not
cover (in JavaScript those sources would throw at construction time). -/
def parseRegex (src : String) : Option Re :=
  (parseRe (src.length * 4 + 8) PMode.palt src.data).bind fun p =>
    if p.2.isEmpty then some p.1 else none

/-- Membership of a character in one class item. -/
def clsItemMatch (it : ClsItem) (c : Char) : Bool :=
  match it with
  | .single x => c == x
  | .range lo hi => lo ≤ c && c ≤ hi
  | .space => jsSpace c
  | .word => jsWord c
  | .digit => jsDigit c
  | .notSpace => !(jsSpace c)
  | .notWord => !(jsWord c)
  | .notDigit => !(jsDigit c)

/-- Character-class membership, with ASCII case folding when the regex is
case-insensitive, and optional negation. -/
def clsMatch (ci neg : Bool) (items : List ClsItem) (c : Char) : Bool :=
  let hit := fun ch => items.any (fun it => clsItemMatch it ch)
  let b := hit c || (ci && (hit c.toLower || hit c.toUpper))
  if neg then !b else b

/-- Literal-character match, with ASCII case folding when case-insensitive. -/
def litMatch (ci : Bool) (p c : Char) : Bool :=
  p == c || (ci && p.toLower == c.toLower)

/-- Wordness of the previous character (none at the start of input). -/
def isWordOpt : Option Char → Bool
  | none => false
  | some c => jsWord c

/-- Wordness of the next character (end of input counts as non-word). -/
def isWordHead : List Char → Bool
  | [] => false
  | c :: _ => jsWord c

/-- Backtracking matcher in continuation-passing style.  Arguments: the
remaining input, the previously consumed character (for anchors and word
boundaries) and a continuation receiving the rest of the input on success.
Alternatives are tried left to right and stars greedily, so the first success
is the JavaScript match.  The fuel bounds star unfoldings; each star
iteration must consume input, so sufficient fuel makes the bound inert. -/
def runM (ci : Bool) (fuel : Nat) (r : Re) (s : List Char) (pc : Option Char)
    (k : List Char → Option Char → Option (List Char)) : Option (List Char) :=
  match fuel with
  | 0 => none
  | fuel + 1 =>
    match r with
    | .eps => k s pc
    | .lit c =>
      match s with
      | [] => none
      | x :: xs => if litMatch ci c x then k xs (some x) else none
    | .dot =>
      match s with
      | [] => none
      | x :: xs => if lineTerm x then none else k xs (some x)
    | .cls neg its =>
      match s with
      | [] => none
      | x :: xs => if clsMatch ci neg its x then k xs (some x) else none
    | .bol => if pc.isNone then k s pc else none
    | .eol => if s.isEmpty then k s pc else none
    | .wordB => if isWordOpt pc != isWordHead s then k s pc else none
    | .seq a b => runM ci fuel a s pc (fun s' pc' => runM ci fuel b s' pc' k)
    | .alt a b => (runM ci fuel a s pc k) <|> (runM ci fuel b s pc k)
    | .nlook r' =>
      match runM ci fuel r' s pc (fun s' _ => some s') with
      | some _ => none
      | none => k s pc
    | .star r' =>
      (runM ci fuel r' s pc (fun s' pc' =>
          if s'.length < s.length then runM ci fuel (Re.star r') s' pc' k else none))
      <|> k s pc

/-- Structural size of a regex, used to budget matcher fuel. -/
def reSize : Re → Nat
  | .eps | .lit _ | .dot | .cls _ _ | .bol | .eol | .wordB => 1
  | .seq a b | .alt a b => reSize a + reSize b + 1
  | .star r | .nlook r => reSize r + 1

/-- Ample fuel for the matcher on a given input: far larger than the depth of
any call chain the matcher can produce on the rule data, so the bound never
fires there and the matcher computes the exact JavaScript result. -/
def runFuel (r : Re) (s : List Char) : Nat :=
  (s.length + 2) * (s.length + 2) * (reSize r + 2)

/-- Leftmost-match search: try the regex at each start position from the
left; on success return the suffix at the match start and the rest after the
match. -/
def searchAux (ci : Bool) (r : Re) (s : List Char) (pc : Option Char) :
    Option (List Char × List Char) :=
  match runM ci (runFuel r s) r s pc (fun s' _ => some s') with
  | some rest => some (s, rest)
  | none =>
    match s with
    | [] => none
    | x :: xs => searchAux ci r xs (some x)

/-- Embedding of input.match(regex)[0]: the text of the first match, or none
when the regex does not match (or does not parse). -/
def jsMatchFirst (ci : Bool) (src input : String) : Option String :=
  match parseRegex src with
  | none => none
  | some r =>
    match searchAux ci r input.data none with
    | some (atStart, rest) => some (String.mk (atStart.take (atStart.length - rest.length)))
    | none => none

/-- Embedding of new RegExp(src, flags).test(input); ci selects the
case-insensitive flag. -/
def regexTest (ci : Bool) (src input : String) : Bool :=
  (jsMatchFirst ci src input).isSome

/-! ## Data model of patterns.ts -/

/-- Action attached to a dangerous-command pattern. -/
inductive Action where
  | block
  | ask
deriving Repr, DecidableEq

/-- A dangerous-command rule: regex source, human-readable reason (the
identity key for configuration), and action. -/
structure Pattern where
  pattern : String
  reason : String
  action : Action
deriving Repr, DecidableEq

/-- Protection tier of a protected path. -/
inductive ProtectionLevel where
  | zeroAccess
  | readOnly
  | noDelete
deriving Repr, DecidableEq

/-- A protected-path rule: path spec (literal, directory or glob) and tier. -/
structure ProtectedPath where
  path : String
  level : ProtectionLevel
deriving Repr, DecidableEq

/-- Kind of operation detected by the shell classifier. -/
inductive ShellOperation where
  | access
  | write
  | delete
deriving Repr, DecidableEq

def DEFAULT_PATTERNS : List Pattern := [
  Pattern.mk "rm\\s+-rf\\s+/" "Recursive delete from root" Action.block,
  Pattern.mk ":\\(\\)\\ \\\x7b:" "Fork bomb" Action.block,
  Pattern.mk "fork\\(\\)" "Fork bomb" Action.block,
  Pattern.mk ">\\s*/dev/sd" "Direct device write" Action.block,
  Pattern.mk "mkfs\\." "Format filesystem" Action.block,
  Pattern.mk "kill\\s+-9\\s+-1" "Kill all processes" Action.block,
  Pattern.mk "killall\\s+-9" "Kill all processes" Action.block,
  Pattern.mk "pkill\\s+-9" "pkill -9" Action.block,
  Pattern.mk "shutdown" "System shutdown" Action.block,
  Pattern.mk "reboot" "System reboot" Action.block,
  Pattern.mk "init\\s+0" "System halt" Action.block,
  Pattern.mk "format\\s+[a-z]:" "Windows format" Action.block,
  Pattern.mk "dd\\s+.*of=/dev/" "dd writing to device" Action.block,
  Pattern.mk "DROP\\s+TABLE" "SQL DROP TABLE" Action.block,
  Pattern.mk "DROP\\s+DATABASE" "SQL DROP DATABASE" Action.block,
  Pattern.mk "DELETE\\s+FROM\\s+\\w+\\s*;" "SQL DELETE without WHERE clause" Action.block,
  Pattern.mk "DELETE\\s+FROM\\s+\\w+\\s*$" "SQL DELETE without WHERE clause" Action.block,
  Pattern.mk "DELETE\\s+\\*\\s+FROM" "SQL DELETE * (will delete ALL rows)" Action.block,
  Pattern.mk "TRUNCATE\\s+TABLE" "SQL TRUNCATE TABLE" Action.block,
  Pattern.mk "DELETE\\s+FROM\\s+\\w+\\s+WHERE\\b" "SQL DELETE with WHERE clause" Action.ask,
  Pattern.mk "curl.*\\|\\s*sh" "Pipe curl to shell" Action.block,
  Pattern.mk "wget.*\\|\\s*sh" "Pipe wget to shell" Action.block,
  Pattern.mk "git\\s+push\\s+.*--force(?!-with-lease)" "git push --force (use --force-with-lease)" Action.block,
  Pattern.mk "git\\s+push\\s+(-[^\\s]*)*-f\\b" "git push -f (use --force-with-lease)" Action.block,
  Pattern.mk "git\\s+stash\\s+clear" "git stash clear (deletes ALL stashes)" Action.block,
  Pattern.mk "git\\s+filter-branch" "git filter-branch (rewrites entire history)" Action.block,
  Pattern.mk "git\\s+reflog\\s+expire" "git reflog expire (destroys recovery mechanism)" Action.block,
  Pattern.mk "git\\s+gc\\s+.*--prune=now" "git gc --prune=now (can lose dangling commits)" Action.block,
  Pattern.mk "git\\s+reset\\s+--hard" "git reset --hard (use --soft or stash)" Action.ask,
  Pattern.mk "git\\s+clean\\s+(-[^\\s]*)*-[fd]" "git clean with force/directory flags" Action.ask,
  Pattern.mk "git\\s+checkout\\s+--\\s*\\." "Discard all uncommitted changes" Action.ask,
  Pattern.mk "git\\s+restore\\s+\\." "Discard all uncommitted changes" Action.ask,
  Pattern.mk "git\\s+stash\\s+drop" "Permanently deletes a stash" Action.ask,
  Pattern.mk "git\\s+branch\\s+(-[^\\s]*)*-D" "Force delete branch (even if unmerged)" Action.ask,
  Pattern.mk "git\\s+push\\s+--delete" "Delete remote branch" Action.ask,
  Pattern.mk "git\\s+push\\s+\\S+\\s+:\\S+" "Delete remote branch (refspec syntax)" Action.ask,
  Pattern.mk "docker\\s+rm\\s+.*-f.*\\$\\(docker\\s+ps" "docker rm -f $(docker ps) (force removes containers)" Action.block,
  Pattern.mk "gcloud\\s+storage\\s+rm\\s+.*-r" "gcloud storage rm -r (recursive delete)" Action.ask,
  Pattern.mk "sudo\\s+rm\\b" "sudo rm" Action.block,
  Pattern.mk "\\brm\\s+(-[^\\s]*)*-[rRf]" "rm with recursive or force flags" Action.ask,
  Pattern.mk "\\brm\\s+--recursive" "rm with --recursive flag" Action.ask,
  Pattern.mk "\\brm\\s+--force" "rm with --force flag" Action.ask,
  Pattern.mk "\\brmdir\\s+--ignore-fail-on-non-empty" "rmdir ignore-fail" Action.ask,
  Pattern.mk "chmod\\s+(-[^\\s]+\\s+)*777" "chmod 777 (world writable)" Action.ask,
  Pattern.mk "chmod\\s+-[Rr].*777" "Recursive chmod 777" Action.ask,
  Pattern.mk "chown\\s+-[Rr]" "Recursive ownership change" Action.ask,
  Pattern.mk "terraform\\s+destroy" "terraform destroy" Action.block,
  Pattern.mk "pulumi\\s+destroy" "pulumi destroy" Action.block,
  Pattern.mk "aws\\s+s3\\s+rm\\s+.*--recursive" "aws s3 rm --recursive" Action.block,
  Pattern.mk "aws\\s+s3\\s+rb\\s+.*--force" "aws s3 rb --force" Action.block,
  Pattern.mk "aws\\s+ec2\\s+terminate-instances" "aws ec2 terminate-instances" Action.ask,
  Pattern.mk "aws\\s+rds\\s+delete-db-instance" "aws rds delete-db-instance" Action.ask,
  Pattern.mk "aws\\s+cloudformation\\s+delete-stack" "aws cloudformation delete-stack" Action.ask,
  Pattern.mk "aws\\s+dynamodb\\s+delete-table" "aws dynamodb delete-table" Action.ask,
  Pattern.mk "aws\\s+eks\\s+delete-cluster" "aws eks delete-cluster" Action.ask,
  Pattern.mk "aws\\s+lambda\\s+delete-function" "aws lambda delete-function" Action.ask,
  Pattern.mk "aws\\s+iam\\s+delete-role" "aws iam delete-role" Action.ask,
  Pattern.mk "aws\\s+iam\\s+delete-user" "aws iam delete-user" Action.ask,
  Pattern.mk "gcloud\\s+projects\\s+delete" "gcloud projects delete" Action.block,
  Pattern.mk "gcloud\\s+compute\\s+instances\\s+delete" "gcloud compute instances delete" Action.ask,
  Pattern.mk "gcloud\\s+sql\\s+instances\\s+delete" "gcloud sql instances delete" Action.ask,
  Pattern.mk "gcloud\\s+container\\s+clusters\\s+delete" "gcloud container clusters delete" Action.ask,
  Pattern.mk "gcloud\\s+functions\\s+delete" "gcloud functions delete" Action.ask,
  Pattern.mk "gcloud\\s+iam\\s+service-accounts\\s+delete" "gcloud iam service-accounts delete" Action.ask,
  Pattern.mk "docker\\s+system\\s+prune\\s+.*-a" "docker system prune -a" Action.ask,
  Pattern.mk "docker\\s+rmi\\s+.*-f" "docker rmi -f (force removes images)" Action.ask,
  Pattern.mk "docker\\s+volume\\s+rm" "docker volume rm (data loss)" Action.ask,
  Pattern.mk "docker\\s+volume\\s+prune" "docker volume prune" Action.ask,
  Pattern.mk "kubectl\\s+delete\\s+namespace" "kubectl delete namespace" Action.ask,
  Pattern.mk "kubectl\\s+delete\\s+all\\s+--all" "kubectl delete all --all" Action.block,
  Pattern.mk "kubectl\\s+delete\\s+.*--all\\s+--all-namespaces" "kubectl delete across all namespaces" Action.block,
  Pattern.mk "helm\\s+uninstall" "helm uninstall" Action.ask,
  Pattern.mk "redis-cli\\s+FLUSHALL" "redis FLUSHALL" Action.block,
  Pattern.mk "redis-cli\\s+FLUSHDB" "redis FLUSHDB" Action.ask,
  Pattern.mk "dropdb\\b" "PostgreSQL dropdb" Action.block,
  Pattern.mk "mysqladmin\\s+drop" "MySQL drop database" Action.block,
  Pattern.mk "mongosh.*dropDatabase" "MongoDB dropDatabase" Action.block,
  Pattern.mk "mongo.*dropDatabase" "MongoDB dropDatabase (legacy shell)" Action.block,
  Pattern.mk "vercel\\s+remove\\s+.*--yes" "vercel remove --yes" Action.ask,
  Pattern.mk "vercel\\s+projects\\s+rm" "vercel projects rm" Action.ask,
  Pattern.mk "vercel\\s+env\\s+rm\\s+.*--yes" "vercel env rm --yes" Action.ask,
  Pattern.mk "netlify\\s+sites:delete" "netlify sites:delete" Action.ask,
  Pattern.mk "netlify\\s+functions:delete" "netlify functions:delete" Action.ask,
  Pattern.mk "heroku\\s+apps:destroy" "heroku apps:destroy" Action.ask,
  Pattern.mk "heroku\\s+pg:reset" "heroku pg:reset" Action.ask,
  Pattern.mk "fly\\s+apps\\s+destroy" "fly apps destroy" Action.ask,
  Pattern.mk "fly\\s+destroy" "fly destroy" Action.ask,
  Pattern.mk "wrangler\\s+delete" "wrangler delete (Cloudflare Worker)" Action.ask,
  Pattern.mk "wrangler\\s+r2\\s+bucket\\s+delete" "wrangler r2 bucket delete" Action.ask,
  Pattern.mk "wrangler\\s+kv:namespace\\s+delete" "wrangler kv:namespace delete" Action.ask,
  Pattern.mk "wrangler\\s+d1\\s+delete" "wrangler d1 delete" Action.ask,
  Pattern.mk "wrangler\\s+queues\\s+delete" "wrangler queues delete" Action.ask,
  Pattern.mk "firebase\\s+projects:delete" "firebase projects:delete" Action.block,
  Pattern.mk "firebase\\s+firestore:delete\\s+.*--all-collections" "firebase firestore:delete --all-collections" Action.block,
  Pattern.mk "firebase\\s+database:remove" "firebase database:remove" Action.ask,
  Pattern.mk "firebase\\s+hosting:disable" "firebase hosting:disable" Action.ask,
  Pattern.mk "firebase\\s+functions:delete" "firebase functions:delete" Action.ask,
  Pattern.mk "serverless\\s+remove" "serverless remove (removes stack)" Action.ask,
  Pattern.mk "sls\\s+remove" "sls remove (removes stack)" Action.ask,
  Pattern.mk "sam\\s+delete" "sam delete (deletes SAM application)" Action.ask,
  Pattern.mk "doctl\\s+compute\\s+droplet\\s+delete" "doctl droplet delete" Action.ask,
  Pattern.mk "doctl\\s+databases\\s+delete" "doctl databases delete" Action.ask,
  Pattern.mk "supabase\\s+db\\s+reset" "supabase db reset" Action.ask,
  Pattern.mk "npm\\s+unpublish" "npm unpublish" Action.block,
  Pattern.mk "gh\\s+repo\\s+delete" "gh repo delete" Action.block,
  Pattern.mk "history\\s+-c" "Clear shell history" Action.ask
]

def DEFAULT_PROTECTED_PATHS : List ProtectedPath := [
  ProtectedPath.mk "~/.ssh" ProtectionLevel.zeroAccess,
  ProtectedPath.mk "~/.aws" ProtectionLevel.zeroAccess,
  ProtectedPath.mk "~/.gnupg" ProtectionLevel.zeroAccess,
  ProtectedPath.mk "~/.config/gcloud" ProtectionLevel.zeroAccess,
  ProtectedPath.mk "~/.azure" ProtectionLevel.zeroAccess,
  ProtectedPath.mk "~/.kube" ProtectionLevel.zeroAccess,
  ProtectedPath.mk "~/.docker" ProtectionLevel.zeroAccess,
  ProtectedPath.mk "/etc/passwd" ProtectionLevel.zeroAccess,
  ProtectedPath.mk "/etc/shadow" ProtectionLevel.zeroAccess,
  ProtectedPath.mk "~/.config/opencode" ProtectionLevel.zeroAccess,
  ProtectedPath.mk "~/.netrc" ProtectionLevel.zeroAccess,
  ProtectedPath.mk "~/.npmrc" ProtectionLevel.zeroAccess,
  ProtectedPath.mk "~/.pypirc" ProtectionLevel.zeroAccess,
  ProtectedPath.mk "~/.git-credentials" ProtectionLevel.zeroAccess,
  ProtectedPath.mk ".git-credentials" ProtectionLevel.zeroAccess,
  ProtectedPath.mk ".env*" ProtectionLevel.zeroAccess,
  ProtectedPath.mk "*.pem" ProtectionLevel.zeroAccess,
  ProtectedPath.mk "*.key" ProtectionLevel.zeroAccess,
  ProtectedPath.mk "*.p12" ProtectionLevel.zeroAccess,
  ProtectedPath.mk "*.pfx" ProtectionLevel.zeroAccess,
  ProtectedPath.mk "*.tfstate*" ProtectionLevel.zeroAccess,
  ProtectedPath.mk ".terraform/" ProtectionLevel.zeroAccess,
  ProtectedPath.mk "*-credentials.json" ProtectionLevel.zeroAccess,
  ProtectedPath.mk "*serviceAccount*.json" ProtectionLevel.zeroAccess,
  ProtectedPath.mk "*service-account*.json" ProtectionLevel.zeroAccess,
  ProtectedPath.mk "serviceAccountKey.json" ProtectionLevel.zeroAccess,
  ProtectedPath.mk "kubeconfig" ProtectionLevel.zeroAccess,
  ProtectedPath.mk "*-secret.yaml" ProtectionLevel.zeroAccess,
  ProtectedPath.mk "secrets.yaml" ProtectionLevel.zeroAccess,
  ProtectedPath.mk ".vercel/" ProtectionLevel.zeroAccess,
  ProtectedPath.mk ".netlify/" ProtectionLevel.zeroAccess,
  ProtectedPath.mk "firebase-adminsdk*.json" ProtectionLevel.zeroAccess,
  ProtectedPath.mk ".supabase/" ProtectionLevel.zeroAccess,
  ProtectedPath.mk "dump.sql" ProtectionLevel.zeroAccess,
  ProtectedPath.mk "backup.sql" ProtectionLevel.zeroAccess,
  ProtectedPath.mk "*.dump" ProtectionLevel.zeroAccess,
  ProtectedPath.mk "/etc/" ProtectionLevel.readOnly,
  ProtectedPath.mk "/usr/" ProtectionLevel.readOnly,
  ProtectedPath.mk "/bin/" ProtectionLevel.readOnly,
  ProtectedPath.mk "/sbin/" ProtectionLevel.readOnly,
  ProtectedPath.mk "/boot/" ProtectionLevel.readOnly,
  ProtectedPath.mk "/root/" ProtectionLevel.readOnly,
  ProtectedPath.mk "~/.bash_history" ProtectionLevel.readOnly,
  ProtectedPath.mk "~/.zsh_history" ProtectionLevel.readOnly,
  ProtectedPath.mk "~/.node_repl_history" ProtectionLevel.readOnly,
  ProtectedPath.mk "~/.bashrc" ProtectionLevel.readOnly,
  ProtectedPath.mk "~/.zshrc" ProtectionLevel.readOnly,
  ProtectedPath.mk "~/.profile" ProtectionLevel.readOnly,
  ProtectedPath.mk "~/.bash_profile" ProtectionLevel.readOnly,
  ProtectedPath.mk "package-lock.json" ProtectionLevel.readOnly,
  ProtectedPath.mk "yarn.lock" ProtectionLevel.readOnly,
  ProtectedPath.mk "pnpm-lock.yaml" ProtectionLevel.readOnly,
  ProtectedPath.mk "Gemfile.lock" ProtectionLevel.readOnly,
  ProtectedPath.mk "Cargo.lock" ProtectionLevel.readOnly,
  ProtectedPath.mk "poetry.lock" ProtectionLevel.readOnly,
  ProtectedPath.mk "composer.lock" ProtectionLevel.readOnly,
  ProtectedPath.mk "go.sum" ProtectionLevel.readOnly,
  ProtectedPath.mk "Pipfile.lock" ProtectionLevel.readOnly,
  ProtectedPath.mk "flake.lock" ProtectionLevel.readOnly,
  ProtectedPath.mk "bun.lockb" ProtectionLevel.readOnly,
  ProtectedPath.mk "uv.lock" ProtectionLevel.readOnly,
  ProtectedPath.mk "npm-shrinkwrap.json" ProtectionLevel.readOnly,
  ProtectedPath.mk "*.lock" ProtectionLevel.readOnly,
  ProtectedPath.mk "*.lockb" ProtectionLevel.readOnly,
  ProtectedPath.mk "*.min.js" ProtectionLevel.readOnly,
  ProtectedPath.mk "*.min.css" ProtectionLevel.readOnly,
  ProtectedPath.mk "*.bundle.js" ProtectionLevel.readOnly,
  ProtectedPath.mk "*.chunk.js" ProtectionLevel.readOnly,
  ProtectedPath.mk "dist/" ProtectionLevel.readOnly,
  ProtectedPath.mk "build/" ProtectionLevel.readOnly,
  ProtectedPath.mk "out/" ProtectionLevel.readOnly,
  ProtectedPath.mk ".next/" ProtectionLevel.readOnly,
  ProtectedPath.mk ".nuxt/" ProtectionLevel.readOnly,
  ProtectedPath.mk ".output/" ProtectionLevel.readOnly,
  ProtectedPath.mk "node_modules/" ProtectionLevel.readOnly,
  ProtectedPath.mk "__pycache__/" ProtectionLevel.readOnly,
  ProtectedPath.mk ".venv/" ProtectionLevel.readOnly,
  ProtectedPath.mk "venv/" ProtectionLevel.readOnly,
  ProtectedPath.mk "target/" ProtectionLevel.readOnly,
  ProtectedPath.mk "~/.claude/" ProtectionLevel.noDelete,
  ProtectedPath.mk "CLAUDE.md" ProtectionLevel.noDelete,
  ProtectedPath.mk "LICENSE*" ProtectionLevel.noDelete,
  ProtectedPath.mk "COPYING*" ProtectionLevel.noDelete,
  ProtectedPath.mk "NOTICE" ProtectionLevel.noDelete,
  ProtectedPath.mk "PATENTS" ProtectionLevel.noDelete,
  ProtectedPath.mk "README*" ProtectionLevel.noDelete,
  ProtectedPath.mk "CONTRIBUTING.md" ProtectionLevel.noDelete,
  ProtectedPath.mk "CHANGELOG.md" ProtectionLevel.noDelete,
  ProtectedPath.mk "CODE_OF_CONDUCT.md" ProtectionLevel.noDelete,
  ProtectedPath.mk "SECURITY.md" ProtectionLevel.noDelete,
  ProtectedPath.mk ".git/" ProtectionLevel.noDelete,
  ProtectedPath.mk ".gitignore" ProtectionLevel.noDelete,
  ProtectedPath.mk ".gitattributes" ProtectionLevel.noDelete,
  ProtectedPath.mk ".gitmodules" ProtectionLevel.noDelete,
  ProtectedPath.mk ".github/" ProtectionLevel.noDelete,
  ProtectedPath.mk ".gitlab-ci.yml" ProtectionLevel.noDelete,
  ProtectedPath.mk ".circleci/" ProtectionLevel.noDelete,
  ProtectedPath.mk "Jenkinsfile" ProtectionLevel.noDelete,
  ProtectedPath.mk ".travis.yml" ProtectionLevel.noDelete,
  ProtectedPath.mk "azure-pipelines.yml" ProtectionLevel.noDelete,
  ProtectedPath.mk "Dockerfile*" ProtectionLevel.noDelete,
  ProtectedPath.mk "docker-compose*.yml" ProtectionLevel.noDelete,
  ProtectedPath.mk ".dockerignore" ProtectionLevel.noDelete
]


/-! ## Pattern matcher and path classifier of patterns.ts -/

/-- Result of matchPattern: the matched text and the winning rule. -/
structure MatchResult where
  matched : String
  pattern : Pattern
deriving Repr, DecidableEq

/-- Embedding of matchPattern: scan the rules in list order, compile each
pattern case-insensitively, return on the first test success the matched
substring (or the pattern source when the extracted match is empty, via the
JavaScript or-else on a falsy string) together with the rule. -/
def matchPattern (command : String) (patterns : List Pattern) : Option MatchResult :=
  match patterns with
  | [] => none
  | p :: rest =>
    if regexTest true p.pattern command then
      let m := (jsMatchFirst true p.pattern command).getD ""
      some (MatchResult.mk (if m == "" then p.pattern else m) p)
    else matchPattern command rest

/-- Embedding of isGlobPattern: the path spec contains a star. -/
def isGlobPattern (path : String) : Bool :=
  path.data.contains '*'

/-- Embedding of expandHome: replace the first occurrence of a tilde with the
home-directory value (JavaScript String.replace with a string pattern). -/
def expandHome (home p : String) : String :=
  replaceFirst p "~" home

/-- Split a glob at its stars; the resulting literal segments are never
empty as a list.  Used by the specification-side glob matcher that renders
the wording of claim C4. -/
def splitStar : List Char → List (List Char)
  | [] => [[]]
  | '*' :: rest => [] :: splitStar rest
  | c :: rest =>
    match splitStar rest with
    | [] => [[c]]
    | seg :: segs => (c :: seg) :: segs

/-- Anchored matching of glob segments, structurally recursive on fuel.
With the gap flag off: the name must start with the first segment, the
following segments are separated by gaps of arbitrary non-line-terminator
characters (the dot-star a star compiles to), and the last segment must
reach the end of the name.  With the gap flag on: some prefix of
non-line-terminator characters is skipped before the segments resume. -/
def segsMatchGo (fuel : Nat) (segs : List (List Char)) (s : List Char) (gap : Bool) : Bool :=
  match fuel with
  | 0 => false
  | fuel + 1 =>
    if gap then
      segsMatchGo fuel segs s false ||
        match s with
        | [] => false
        | c :: rest => !lineTerm c && segsMatchGo fuel segs rest true
    else
      match segs with
      | [] => s.isEmpty
      | [seg] => seg == s
      | seg :: segs => startsWithL seg s && segsMatchGo fuel segs (s.drop seg.length) true

/-- Anchored glob-segment matching with ample fuel (the fuel bound is larger
than any possible call depth, so it never fires).  This is the denotation of
the glob wording of claim C4 (escape every regex metacharacter except the
star): every non-star character is a literal and each star becomes a gap of
non-line-terminator characters. -/
def segsMatch (segs : List (List Char)) (s : List Char) : Bool :=
  segsMatchGo (2 * (segs.length + s.length) + 4) segs s false

/-- Characters the source escapes when building a regex from a glob: the
escape class of globToRegex (patterns.ts) is dot, plus, caret, dollar, both
braces, both parentheses, bar, both brackets and backslash.  Note that the
question mark is absent from the class, so a question mark in a glob spec
survives into the regex as a quantifier. -/
def globEscaped (c : Char) : Bool :=
  c == '.' || c == '+' || c == '^' || c == '$' || c == '\x7b' || c == '\x7d' ||
  c == '(' || c == ')' || c == '|' || c == '[' || c == ']' || c == '\\'

/-- First rewrite of globToRegex: prefix every character of the escape class
with a backslash. -/
def escapeReChars : List Char → List Char
  | [] => []
  | c :: rest => if globEscaped c then '\\' :: c :: escapeReChars rest else c :: escapeReChars rest

/-- Second rewrite of globToRegex: turn each star into dot-star (the escape
step never produces a star, so these are exactly the original stars). -/
def starToDotStar : List Char → List Char
  | [] => []
  | '*' :: rest => '.' :: '*' :: starToDotStar rest
  | c :: rest => c :: starToDotStar rest

/-- Embedding of globToRegex: the source string of the anchored regex the
code constructs from a glob spec. -/
def globToRegexSrc (glob : String) : String :=
  String.mk ('^' :: starToDotStar (escapeReChars glob.data) ++ ['$'])

/-- Embedding of globToRegex followed by RegExp.test: build the regex source
exactly as the code does and run it case-sensitively through the regex
interpreter.  A glob whose constructed source falls outside the interpreter
dialect (where RegExp construction would throw in JavaScript) tests as a
non-match. -/
def globTest (glob : String) (name : String) : Bool :=
  regexTest false (globToRegexSrc glob) name

/-- Embedding of checkPathProtection: first rule in list order that matches
the file path; glob specs are tested against the basename, other specs by
substring against the home-expanded or raw path. -/
def checkPathProtection (home : String) (filePath : String)
    (protectedPaths : List ProtectedPath) : Option ProtectedPath :=
  match protectedPaths with
  | [] => none
  | p :: rest =>
    if isGlobPattern p.path then
      if globTest p.path (basename filePath) then some p
      else checkPathProtection home filePath rest
    else
      let expandedPath := replaceFirst p.path "~" home
      if jsIncludes filePath expandedPath || jsIncludes filePath p.path then some p
      else checkPathProtection home filePath rest

/-! ## Shell operation classifiers of patterns.ts -/

/-- Regex sources that indicate a shell command writes or modifies files. -/
def SHELL_WRITE_OPS : List String := [
  "(?:^|[;&|]\\s*)(?:>|>>)\\s*",
  "\\btee\\s+(?:-a\\s+)?",
  "\\bsed\\s+(-[^\\s]*\\s+)*-i",
  "\\bsed\\s+--in-place",
  "\\bcp\\s+",
  "\\bmv\\s+",
  "\\bchmod\\s+",
  "\\bchown\\s+",
  "\\bln\\s+",
  "\\binstall\\s+",
  "\\bpatch\\s+",
  "\\btruncate\\s+",
  "\\bdd\\s+",
  "\\btouch\\s+",
  "\\bmkdir\\s+",
  "\\becho\\s+.*(?:>|>>)\\s*",
  "\\bprintf\\s+.*(?:>|>>)\\s*",
  "\\bcat\\s+.*(?:>|>>)\\s*"
]

/-- Regex sources that indicate a shell command deletes files. -/
def SHELL_DELETE_OPS : List String := [
  "\\brm\\s+",
  "\\bunlink\\s+",
  "\\brmdir\\s+",
  "\\bshred\\s+"
]

/-- Embedding of commandReferencesPath: for glob specs, match the basename
of each whitespace token against the glob (empty names are falsy and
skipped); otherwise substring search for the home-expanded or raw form. -/
def commandReferencesPath (home command protPath : String) : Bool :=
  if isGlobPattern protPath then
    (wsSplit command).any (fun tok =>
      let name := basename (String.mk tok)
      name != "" && globTest protPath name)
  else
    let expanded := replaceFirst protPath "~" home
    jsIncludes command expanded || jsIncludes command protPath

/-- Embedding of isShellWrite: the protected path is referenced and some
write-operator signature (case-sensitive regexes) matches the command. -/
def isShellWrite (home command protPath : String) : Bool :=
  commandReferencesPath home command protPath &&
    SHELL_WRITE_OPS.any (fun op => regexTest false op command)

/-- Embedding of isShellDelete: the protected path is referenced and some
delete-operator signature matches the command. -/
def isShellDelete (home command protPath : String) : Bool :=
  commandReferencesPath home command protPath &&
    SHELL_DELETE_OPS.any (fun op => regexTest false op command)

/-- Embedding of checkShellPathViolation: scan the protected paths in list
order; a zeroAccess rule is hit by any reference, a readOnly rule by a write
(else a delete), a noDelete rule by a delete; the first hit is returned. -/
def checkShellPathViolation (home command : String)
    (protectedPaths : List ProtectedPath) : Option (ProtectedPath × ShellOperation) :=
  match protectedPaths with
  | [] => none
  | p :: rest =>
    match p.level with
    | ProtectionLevel.zeroAccess =>
      if commandReferencesPath home command p.path then some (p, ShellOperation.access)
      else checkShellPathViolation home command rest
    | ProtectionLevel.readOnly =>
      if isShellWrite home command p.path then some (p, ShellOperation.write)
      else if isShellDelete home command p.path then some (p, ShellOperation.delete)
      else checkShellPathViolation home command rest
    | ProtectionLevel.noDelete =>
      if isShellDelete home command p.path then some (p, ShellOperation.delete)
      else checkShellPathViolation home command rest

/-! ## Configuration overlay engine (config.ts)

The config loader reads JSON files; JSON.parse output is embedded as the
generic value tree JValue below.  Numbers are carried as their display
strings (the engine never computes with them, it only type-tests and
interpolates them into warning messages). -/

/-- Generic JSON value tree, the shape of JSON.parse output. -/
inductive JValue where
  | null
  | bool (b : Bool)
  | num (display : String)
  | str (s : String)
  | arr (items : List JValue)
  | obj (fields : List (String × JValue))

/-- First-match lookup in an association list; embeds JavaScript property
access on objects (whose keys are unique after JSON.parse). -/
def lookupStr {α : Type} (l : List (String × α)) (k : String) : Option α :=
  (l.find? (fun kv => kv.1 == k)).map (fun kv => kv.2)

/-- Property access on a JSON object. -/
def jsGet (fields : List (String × JValue)) (k : String) : Option JValue :=
  lookupStr fields k

/-- Embedding of the JavaScript object spread aggregate (first record spread
before second): keys of the first record keep their position but take the
second record value when the key is present there; keys only in the second
record are appended. -/
def recordMerge {α : Type} (g p : List (String × α)) : List (String × α) :=
  g.map (fun kv => (kv.1, (lookupStr p kv.1).getD kv.2)) ++
    p.filter (fun kv => (lookupStr g kv.1).isNone)

mutual

/-- Embedding of JavaScript String(v) as used by template interpolation. -/
def jsDisplay : JValue → String
  | JValue.null => "null"
  | JValue.bool b => if b then "true" else "false"
  | JValue.num display => display
  | JValue.str s => s
  | JValue.arr items => jsDisplayItems items
  | JValue.obj _ => "[object Object]"

/-- Array display joins element displays with commas; null elements display
as the empty string inside a join. -/
def jsDisplayItems : List JValue → String
  | [] => ""
  | [JValue.null] => ""
  | [v] => jsDisplay v
  | JValue.null :: rest => "," ++ jsDisplayItems rest
  | v :: rest => jsDisplay v ++ "," ++ jsDisplayItems rest

end

/-- Lower-case or numeric hexadecimal digit. -/
def hexDigit (n : Nat) : Char :=
  if n < 10 then Char.ofNat (48 + n) else Char.ofNat (87 + n)

/-- Escaping of one character under JSON.stringify. -/
def jsonEscChar (c : Char) : String :=
  if c == '"' then "\\\""
  else if c == '\\' then "\\\\"
  else if c == '\n' then "\\n"
  else if c == '\r' then "\\r"
  else if c == '\t' then "\\t"
  else if c == '\x08' then "\\b"
  else if c == '\x0c' then "\\f"
  else if c.toNat < 32 then
    String.mk ['\\', 'u', '0', '0', hexDigit (c.toNat / 16), hexDigit (c.toNat % 16)]
  else String.singleton c

/-- Embedding of JSON.stringify on a string value. -/
def jsStringifyStr (s : String) : String :=
  "\"" ++ String.join (s.data.map jsonEscChar) ++ "\""

/-- Override value for a protected path: a new level, or the removal
sentinel written as the string none in the configuration file. -/
inductive LevelOverride where
  | assign (l : ProtectionLevel)
  | remove
deriving Repr, DecidableEq

/-- Validated patterns section of a configuration overlay. -/
structure PatternsConfig where
  add : Option (List Pattern)
  remove : Option (List String)
  override : Option (List (String × Action))
deriving Repr, DecidableEq

/-- Validated paths section of a configuration overlay. -/
structure PathsConfig where
  add : Option (List ProtectedPath)
  remove : Option (List String)
  override : Option (List (String × LevelOverride))
deriving Repr, DecidableEq

/-- Validated configuration overlay. -/
structure DamageControlConfig where
  patterns : Option PatternsConfig
  paths : Option PathsConfig
deriving Repr, DecidableEq

/-- The empty overlay. -/
def emptyConfig : DamageControlConfig :=
  DamageControlConfig.mk none none

/-- Valid actions for pattern rules and overrides. -/
def VALID_ACTIONS : List String := ["block", "ask"]

/-- Valid levels for path overrides (none is the removal sentinel). -/
def VALID_LEVELS : List String := ["zeroAccess", "readOnly", "noDelete", "none"]

/-- Decode an already-validated action string. -/
def parseAction (a : String) : Action :=
  if a == "block" then Action.block else Action.ask

/-- Decode an already-validated level string other than none. -/
def parseLevel (l : String) : ProtectionLevel :=
  if l == "zeroAccess" then ProtectionLevel.zeroAccess
  else if l == "readOnly" then ProtectionLevel.readOnly
  else ProtectionLevel.noDelete

/-- Decode an already-validated level-override string. -/
def parseLevelOverride (l : String) : LevelOverride :=
  if l == "none" then LevelOverride.remove else LevelOverride.assign (parseLevel l)

/-- Embedding of isValidPattern plus the subsequent cast: an object with
string pattern, string reason and a recognized action. -/
def toPatternV : JValue → Option Pattern
  | JValue.obj fs =>
    match jsGet fs "pattern", jsGet fs "reason", jsGet fs "action" with
    | some (JValue.str p), some (JValue.str r), some (JValue.str a) =>
      if VALID_ACTIONS.contains a then some (Pattern.mk p r (parseAction a)) else none
    | _, _, _ => none
  | _ => none

/-- Embedding of isValidProtectedPath plus the subsequent cast: an object
with string path and a recognized level other than the none sentinel. -/
def toProtectedPathV : JValue → Option ProtectedPath
  | JValue.obj fs =>
    match jsGet fs "path", jsGet fs "level" with
    | some (JValue.str p), some (JValue.str l) =>
      if VALID_LEVELS.contains l && l != "none" then
        some (ProtectedPath.mk p (parseLevel l)) else none
    | _, _ => none
  | _ => none

/-- Indexed validation loop over patterns.add entries: invalid entries are
dropped individually with a warning naming their index. -/
def patternsAddLoop (source : String) (i : Nat) :
    List JValue → List Pattern × List String
  | [] => ([], [])
  | v :: rest =>
    let t := patternsAddLoop source (i + 1) rest
    match toPatternV v with
    | some p => (p :: t.1, t.2)
    | none =>
      (t.1, (source ++ ": \"patterns.add[" ++ toString i ++
        "]\" is invalid (need pattern, reason, action), skipping") :: t.2)

/-- Indexed validation loop over paths.add entries. -/
def pathsAddLoop (source : String) (i : Nat) :
    List JValue → List ProtectedPath × List String
  | [] => ([], [])
  | v :: rest =>
    let t := pathsAddLoop source (i + 1) rest
    match toProtectedPathV v with
    | some p => (p :: t.1, t.2)
    | none =>
      (t.1, (source ++ ": \"paths.add[" ++ toString i ++
        "]\" is invalid (need path, level), skipping") :: t.2)

/-- Validation of a remove list: keep the strings; warn once when any
non-string entry was dropped. -/
def removeValidation (source field : String) (items : List JValue) :
    List String × List String :=
  let valid := items.filterMap (fun v =>
    match v with
    | JValue.str s => some s
    | _ => none)
  if valid.length != items.length then
    (valid, [source ++ ": some \"" ++ field ++ "\" entries are not strings, skipping those"])
  else (valid, [])

/-- Validation loop over patterns.override entries: entries whose value is
not a recognized action string are dropped with a warning that interpolates
the stringified key and the displayed value. -/
def patternsOvLoop (source : String) :
    List (String × JValue) → List (String × Action) × List String
  | [] => ([], [])
  | (k, v) :: rest =>
    let t := patternsOvLoop source rest
    let warn := source ++ ": \"patterns.override[" ++ jsStringifyStr k ++
      "]\" has invalid action \"" ++ jsDisplay v ++ "\", skipping"
    match v with
    | JValue.str a =>
      if VALID_ACTIONS.contains a then ((k, parseAction a) :: t.1, t.2)
      else (t.1, warn :: t.2)
    | _ => (t.1, warn :: t.2)

/-- Validation loop over paths.override entries. -/
def pathsOvLoop (source : String) :
    List (String × JValue) → List (String × LevelOverride) × List String
  | [] => ([], [])
  | (k, v) :: rest =>
    let t := pathsOvLoop source rest
    let warn := source ++ ": \"paths.override[" ++ jsStringifyStr k ++
      "]\" has invalid level \"" ++ jsDisplay v ++ "\", skipping"
    match v with
    | JValue.str l =>
      if VALID_LEVELS.contains l then ((k, parseLevelOverride l) :: t.1, t.2)
      else (t.1, warn :: t.2)
    | _ => (t.1, warn :: t.2)

/-- Validation of the patterns section: absent stays absent; a non-object
value is ignored with a warning; otherwise each of add, remove and override
is validated and kept only when non-empty, exactly as in the source. -/
def validatePatternsSection (source : String) :
    Option JValue → Option PatternsConfig × List String
  | none => (none, [])
  | some (JValue.obj pfs) =>
    let addPart : Option (List Pattern) × List String :=
      match jsGet pfs "add" with
      | none => (none, [])
      | some (JValue.arr items) =>
        let t := patternsAddLoop source 0 items
        (if t.1.length > 0 then some t.1 else none, t.2)
      | some _ => (none, [source ++ ": \"patterns.add\" is not an array, ignoring"])
    let removePart : Option (List String) × List String :=
      match jsGet pfs "remove" with
      | none => (none, [])
      | some (JValue.arr items) =>
        let t := removeValidation source "patterns.remove" items
        (if t.1.length > 0 then some t.1 else none, t.2)
      | some _ => (none, [source ++ ": \"patterns.remove\" is not an array, ignoring"])
    let ovPart : Option (List (String × Action)) × List String :=
      match jsGet pfs "override" with
      | none => (none, [])
      | some (JValue.obj ofs) =>
        let t := patternsOvLoop source ofs
        (if t.1.length > 0 then some t.1 else none, t.2)
      | some _ => (none, [source ++ ": \"patterns.override\" is not an object, ignoring"])
    (some (PatternsConfig.mk addPart.1 removePart.1 ovPart.1),
      addPart.2 ++ removePart.2 ++ ovPart.2)
  | some _ => (none, [source ++ ": \"patterns\" is not an object, ignoring"])

/-- Validation of the paths section, symmetric to the patterns section. -/
def validatePathsSection (source : String) :
    Option JValue → Option PathsConfig × List String
  | none => (none, [])
  | some (JValue.obj pfs) =>
    let addPart : Option (List ProtectedPath) × List String :=
      match jsGet pfs "add" with
      | none => (none, [])
      | some (JValue.arr items) =>
        let t := pathsAddLoop source 0 items
        (if t.1.length > 0 then some t.1 else none, t.2)
      | some _ => (none, [source ++ ": \"paths.add\" is not an array, ignoring"])
    let removePart : Option (List String) × List String :=
      match jsGet pfs "remove" with
      | none => (none, [])
      | some (JValue.arr items) =>
        let t := removeValidation source "paths.remove" items
        (if t.1.length > 0 then some t.1 else none, t.2)
      | some _ => (none, [source ++ ": \"paths.remove\" is not an array, ignoring"])
    let ovPart : Option (List (String × LevelOverride)) × List String :=
      match jsGet pfs "override" with
      | none => (none, [])
      | some (JValue.obj ofs) =>
        let t := pathsOvLoop source ofs
        (if t.1.length > 0 then some t.1 else none, t.2)
      | some _ => (none, [source ++ ": \"paths.override\" is not an object, ignoring"])
    (some (PathsConfig.mk addPart.1 removePart.1 ovPart.1),
      addPart.2 ++ removePart.2 ++ ovPart.2)
  | some _ => (none, [source ++ ": \"paths\" is not an object, ignoring"])

/-- Embedding of validateConfig: never fails, returns a best-effort overlay
plus warnings.  A non-object top level yields the empty overlay and one
warning; recognized top-level keys are patterns, paths and the silently
ignored dollar-schema; every other key yields one warning and is ignored. -/
def validateConfig (raw : JValue) (source : String) :
    DamageControlConfig × List String :=
  match raw with
  | JValue.obj fields =>
    let pat := validatePatternsSection source (jsGet fields "patterns")
    let pth := validatePathsSection source (jsGet fields "paths")
    let unknownWs := fields.filterMap (fun kv =>
      if kv.1 == "patterns" || kv.1 == "paths" || kv.1 == "$schema" then none
      else some (source ++ ": unknown key \"" ++ kv.1 ++ "\", ignoring"))
    (DamageControlConfig.mk pat.1 pth.1, pat.2 ++ pth.2 ++ unknownWs)
  | _ => (emptyConfig, [source ++ ": config is not an object, ignoring"])

/-- Embedding of mergeConfigs: add lists concatenate global-first, remove
lists concatenate, override records shallow-merge with the project values
winning; each merged field is only materialized when non-empty, and a
section is only materialized when at least one source had it. -/
def mergeConfigs (g p : DamageControlConfig) : DamageControlConfig :=
  let patterns : Option PatternsConfig :=
    match g.patterns, p.patterns with
    | none, none => none
    | gp, pp =>
      let adds := (gp.bind (fun c => c.add)).getD [] ++ (pp.bind (fun c => c.add)).getD []
      let removes := (gp.bind (fun c => c.remove)).getD [] ++ (pp.bind (fun c => c.remove)).getD []
      let overrides := recordMerge ((gp.bind (fun c => c.override)).getD [])
        ((pp.bind (fun c => c.override)).getD [])
      some (PatternsConfig.mk
        (if adds.length > 0 then some adds else none)
        (if removes.length > 0 then some removes else none)
        (if overrides.length > 0 then some overrides else none))
  let paths : Option PathsConfig :=
    match g.paths, p.paths with
    | none, none => none
    | gp, pp =>
      let adds := (gp.bind (fun c => c.add)).getD [] ++ (pp.bind (fun c => c.add)).getD []
      let removes := (gp.bind (fun c => c.remove)).getD [] ++ (pp.bind (fun c => c.remove)).getD []
      let overrides := recordMerge ((gp.bind (fun c => c.override)).getD [])
        ((pp.bind (fun c => c.override)).getD [])
      some (PathsConfig.mk
        (if adds.length > 0 then some adds else none)
        (if removes.length > 0 then some removes else none)
        (if overrides.length > 0 then some overrides else none))
  DamageControlConfig.mk patterns paths

/-- The effective rule set produced by applying an overlay to defaults. -/
structure EffectiveRuleSet where
  patterns : List Pattern
  paths : List ProtectedPath
deriving Repr, DecidableEq

/-- Embedding of applyConfig: for patterns and paths independently, first
drop entries whose identity key is in the remove list, then apply overrides
to the survivors (a path override with the none sentinel drops the entry),
then append the add entries. -/
def applyConfig (config : DamageControlConfig) (defaultPatterns : List Pattern)
    (defaultPaths : List ProtectedPath) : EffectiveRuleSet :=
  let patterns :=
    match config.patterns with
    | none => defaultPatterns
    | some pc =>
      let ps1 :=
        match pc.remove with
        | none => defaultPatterns
        | some rm => defaultPatterns.filter (fun p => !(rm.contains p.reason))
      let ps2 :=
        match pc.override with
        | none => ps1
        | some ov => ps1.map (fun p =>
            match lookupStr ov p.reason with
            | some a => Pattern.mk p.pattern p.reason a
            | none => p)
      match pc.add with
      | none => ps2
      | some ad => ps2 ++ ad
  let paths :=
    match config.paths with
    | none => defaultPaths
    | some pc =>
      let ps1 :=
        match pc.remove with
        | none => defaultPaths
        | some rm => defaultPaths.filter (fun p => !(rm.contains p.path))
      let ps2 :=
        match pc.override with
        | none => ps1
        | some ov => ps1.filterMap (fun p =>
            match lookupStr ov p.path with
            | some LevelOverride.remove => none
            | some (LevelOverride.assign l) => some (ProtectedPath.mk p.path l)
            | none => some p)
      match pc.add with
      | none => ps2
      | some ad => ps2 ++ ad
  EffectiveRuleSet.mk patterns paths

/-! ## Specification-side definitions used to state the claims -/

/-- Violation test for a single rule, phrased as the specification states
it: a zeroAccess rule is violated exactly when the command references the
path (operation access); a readOnly rule exactly when the command writes
(operation write) or, failing that, deletes (operation delete) the path; a
noDelete rule exactly when the command deletes the path. -/
def violationOp (home command : String) (p : ProtectedPath) : Option ShellOperation :=
  match p.level with
  | ProtectionLevel.zeroAccess =>
    if commandReferencesPath home command p.path then some ShellOperation.access else none
  | ProtectionLevel.readOnly =>
    if isShellWrite home command p.path then some ShellOperation.write
    else if isShellDelete home command p.path then some ShellOperation.delete
    else none
  | ProtectionLevel.noDelete =>
    if isShellDelete home command p.path then some ShellOperation.delete else none

/-- Matched substring as the specification states it: the literal substring
captured by the match, or the pattern source when extraction fails (the
JavaScript or-else also sends an empty extracted match to the source). -/
def matchedOr (src command : String) : String :=
  match jsMatchFirst true src command with
  | some m => if m == "" then src else m
  | none => src

/-- Glob matching exactly as claim C4 words it: every regex metacharacter
except the star escaped, so that every non-star character is a literal and
each star becomes a dot-star gap, anchored at both ends and tested against
the basename. -/
def claimGlobMatches (glob name : String) : Bool :=
  segsMatch (splitStar glob.data) name.data

/-- Per-rule path matching exactly as claim C4 words it: the glob branch
escapes every regex metacharacter except the star (so a question mark is a
literal), and the literal branch expands only a leading tilde of the rule
path to the home value. -/
def claimC4Matches (home filePath : String) (p : ProtectedPath) : Bool :=
  if isGlobPattern p.path then claimGlobMatches p.path (basename filePath)
  else
    let expandedLeading :=
      match p.path.data with
      | '~' :: rest => home ++ String.mk rest
      | _ => p.path
    jsIncludes filePath expandedLeading || jsIncludes filePath p.path

/-- Per-rule path matching as the code performs it: glob specs against the
basename, literal specs by substring of the first-tilde-expanded or raw
form. -/
def pathRuleMatches (home filePath : String) (p : ProtectedPath) : Bool :=
  if isGlobPattern p.path then globTest p.path (basename filePath)
  else jsIncludes filePath (replaceFirst p.path "~" home) || jsIncludes filePath p.path

/-! ## Claims about the pattern matcher and shell classifiers -/

/-- One evaluation step of checkShellPathViolation, expressed through the
per-rule violation test. -/
theorem checkShellPathViolation_cons (home command : String) (p : ProtectedPath)
    (rest : List ProtectedPath) :
    checkShellPathViolation home command (p :: rest)
      = match violationOp home command p with
        | some op => some (p, op)
        | none => checkShellPathViolation home command rest := by
  cases hl : p.level
  case zeroAccess =>
    cases h : commandReferencesPath home command p.path <;>
      simp [checkShellPathViolation, violationOp, hl, h]
  case readOnly =>
    cases hw : isShellWrite home command p.path <;>
      cases hd : isShellDelete home command p.path <;>
        simp [checkShellPathViolation, violationOp, hl, hw, hd]
  case noDelete =>
    cases hd : isShellDelete home command p.path <;>
      simp [checkShellPathViolation, violationOp, hl, hd]

/-- One evaluation step of matchPattern, expressed through the regex test and
the specification-side matched substring. -/
theorem matchPattern_cons (command : String) (p : Pattern) (rest : List Pattern) :
    matchPattern command (p :: rest)
      = if regexTest true p.pattern command
        then some (MatchResult.mk (matchedOr p.pattern command) p)
        else matchPattern command rest := by
  by_cases h : regexTest true p.pattern command
  · cases hm : jsMatchFirst true p.pattern command <;>
      simp [matchPattern, matchedOr, h, hm]
  · simp [matchPattern, h]

/-- One evaluation step of checkPathProtection, expressed through the
per-rule matching predicate. -/
theorem checkPathProtection_cons (home filePath : String) (p : ProtectedPath)
    (rest : List ProtectedPath) :
    checkPathProtection home filePath (p :: rest)
      = if pathRuleMatches home filePath p then some p
        else checkPathProtection home filePath rest := by
  by_cases hg : isGlobPattern p.path
  · by_cases hm : globTest p.path (basename filePath) <;>
      simp [checkPathProtection, pathRuleMatches, hg, hm]
  · by_cases hm : (jsIncludes filePath (replaceFirst p.path "~" home)
        || jsIncludes filePath p.path) <;>
      simp [checkPathProtection, pathRuleMatches, hg, hm]

/-- C1: checkShellPathViolation returns the first rule in list order that is
violated, paired with its operation, and none when no rule is violated,
where a zeroAccess rule is violated exactly when the command references the
path (operation access), a readOnly rule exactly when the command writes
(operation write) or else deletes (operation delete) the path, and a
noDelete rule exactly when the command deletes the path. -/
theorem checkShellPathViolation_first_violation (home command : String)
    (protectedPaths : List ProtectedPath) :
    checkShellPathViolation home command protectedPaths
      = protectedPaths.findSome?
          (fun p => (violationOp home command p).map (fun op => (p, op))) := by
  induction protectedPaths with
  | nil => rfl
  | cons p rest ih =>
    rw [checkShellPathViolation_cons, List.findSome?_cons, ih]
    cases violationOp home command p <;> simp

/-- C2: matchPattern returns the first pattern in list order whose source,
compiled as a case-insensitive regex, matches anywhere in the command,
paired with the matched substring (or the pattern source when extraction
fails), and none when no pattern matches; checkPathProtection follows the
same first-match discipline, so with home /home/user the path /etc/passwd
classifies as the zeroAccess rule /etc/passwd (list index 7) and not as the
readOnly rule /etc/ appearing later (list index 36). -/
theorem matchPattern_first_match_and_path_precedence :
    (∀ (command : String) (patterns : List Pattern),
      matchPattern command patterns
        = (patterns.find? (fun p => regexTest true p.pattern command)).map
            (fun p => MatchResult.mk (matchedOr p.pattern command) p))
  ∧ checkPathProtection "/home/user" "/etc/passwd" DEFAULT_PROTECTED_PATHS
      = some (ProtectedPath.mk "/etc/passwd" ProtectionLevel.zeroAccess)
  ∧ DEFAULT_PROTECTED_PATHS.get? 7
      = some (ProtectedPath.mk "/etc/passwd" ProtectionLevel.zeroAccess)
  ∧ DEFAULT_PROTECTED_PATHS.get? 36
      = some (ProtectedPath.mk "/etc/" ProtectionLevel.readOnly) := by
  refine ⟨?_, by decide, by decide, by decide⟩
  intro command patterns
  induction patterns with
  | nil => rfl
  | cons p rest ih =>
    rw [matchPattern_cons, ih]
    by_cases h : regexTest true p.pattern command
    · rw [List.find?_cons_of_pos _ (by simpa using h), if_pos h]
      rfl
    · rw [List.find?_cons_of_neg _ (by simpa using h), if_neg h]

/-- C3: against the single rule with path tilde-slash-dot-bashrc at level
readOnly (and home /home/user), reading with cat yields no violation,
appending with an echo redirect yields that rule with operation write, and
rm yields that rule with operation delete. -/
theorem bashrc_readOnly_shell_cases :
    checkShellPathViolation "/home/user" "cat ~/.bashrc"
        [ProtectedPath.mk "~/.bashrc" ProtectionLevel.readOnly] = none
  ∧ checkShellPathViolation "/home/user" "echo x >> ~/.bashrc"
        [ProtectedPath.mk "~/.bashrc" ProtectionLevel.readOnly]
      = some (ProtectedPath.mk "~/.bashrc" ProtectionLevel.readOnly, ShellOperation.write)
  ∧ checkShellPathViolation "/home/user" "rm ~/.bashrc"
        [ProtectedPath.mk "~/.bashrc" ProtectionLevel.readOnly]
      = some (ProtectedPath.mk "~/.bashrc" ProtectionLevel.readOnly, ShellOperation.delete) :=
  ⟨by decide, by decide, by decide⟩

/-- C5: against the default pattern list, a DROP TABLE command matches the
block rule with reason SQL DROP TABLE; a git reset hard command matches the
ask rule whose reason contains that text; and the force-push block rule with
its negative lookahead does not match a force-with-lease push. -/
theorem default_patterns_scenarios :
    (matchPattern "DROP TABLE users" DEFAULT_PATTERNS).map (fun r => r.pattern)
        = some (Pattern.mk "DROP\\s+TABLE" "SQL DROP TABLE" Action.block)
  ∧ matchPattern "git reset --hard HEAD~1" DEFAULT_PATTERNS
        = some (MatchResult.mk "git reset --hard"
            (Pattern.mk "git\\s+reset\\s+--hard"
              "git reset --hard (use --soft or stash)" Action.ask))
  ∧ jsIncludes "git reset --hard (use --soft or stash)" "git reset --hard" = true
  ∧ regexTest true "git\\s+push\\s+.*--force(?!-with-lease)"
        "git push --force-with-lease origin main" = false
  ∧ Pattern.mk "git\\s+push\\s+.*--force(?!-with-lease)"
        "git push --force (use --force-with-lease)" Action.block ∈ DEFAULT_PATTERNS :=
  ⟨by decide, by decide, by decide, by decide, by decide⟩

/-- C10: a command writing a protected file only through a redirect preceded
by whitespace, issued by a program outside the write-operator catalogue, is
not classified as a write (the redirect signature requires the redirect at
the start of the command or right after a semicolon, ampersand or bar, as
the two positive cases confirm). -/
theorem redirect_requires_operator_context :
    isShellWrite "/home/user" "./generate.sh > yarn.lock" "yarn.lock" = false
  ∧ checkShellPathViolation "/home/user" "./generate.sh > yarn.lock"
        [ProtectedPath.mk "yarn.lock" ProtectionLevel.readOnly] = none
  ∧ checkShellPathViolation "/home/user" "./generate.sh; > yarn.lock"
        [ProtectedPath.mk "yarn.lock" ProtectionLevel.readOnly]
      = some (ProtectedPath.mk "yarn.lock" ProtectionLevel.readOnly, ShellOperation.write)
  ∧ checkShellPathViolation "/home/user" "> yarn.lock"
        [ProtectedPath.mk "yarn.lock" ProtectionLevel.readOnly]
      = some (ProtectedPath.mk "yarn.lock" ProtectionLevel.readOnly, ShellOperation.write) :=
  ⟨by decide, by decide, by decide, by decide⟩

/-- C4 counterexample, refuting both halves of the claim wording on the
code.  Glob half: the escape class of globToRegex omits the question mark,
so the glob rule ca?*.txt compiles to an anchored regex in which the
question mark is a quantifier, and the code matches basename c.txt, which
the claim wording (question mark escaped, hence literal) denies.  Literal
half: the code expands the first tilde wherever it occurs (JavaScript
String.replace), so the rule path with an interior tilde matches a path the
claim wording (which expands only a leading tilde) says it cannot match. -/
theorem pathRule_claim_wording_counterexample :
    checkPathProtection "/h" "/d/c.txt" [ProtectedPath.mk "ca?*.txt" ProtectionLevel.zeroAccess]
        = some (ProtectedPath.mk "ca?*.txt" ProtectionLevel.zeroAccess)
  ∧ claimC4Matches "/h" "/d/c.txt" (ProtectedPath.mk "ca?*.txt" ProtectionLevel.zeroAccess) = false
  ∧ checkPathProtection "/h" "a/hb" [ProtectedPath.mk "a~b" ProtectionLevel.readOnly]
        = some (ProtectedPath.mk "a~b" ProtectionLevel.readOnly)
  ∧ claimC4Matches "/h" "a/hb" (ProtectedPath.mk "a~b" ProtectionLevel.readOnly) = false :=
  ⟨by decide, by decide, by decide, by decide⟩

/-- C4 as amended: checkPathProtection returns the first rule matching the
file path, where a glob rule (path containing a star) matches exactly when
the anchored regex the code builds from it accepts the basename of the file
path (final segment, trailing slashes trimmed) -- the construction escapes
the regex metacharacters dot, plus, caret, dollar, braces, parentheses, bar,
brackets and backslash, leaves the star and the question mark unescaped (so
a question mark keeps its regex quantifier meaning), and replaces each star
with dot-star -- and a starless rule matches exactly when the file path
contains, as a substring, either the rule path with its first tilde
(wherever it occurs) replaced by the home value or the raw rule path; in
particular a pem glob matches a nested pem file but not a file inside a
directory whose name ends in pem, a glob with a question mark matches with
the character before the question mark optional, and a dist directory rule
matches a file under any dist directory. -/
theorem checkPathProtection_matching (home filePath : String)
    (protectedPaths : List ProtectedPath) :
    checkPathProtection home filePath protectedPaths
        = protectedPaths.find? (pathRuleMatches home filePath)
  ∧ pathRuleMatches "/home/user" "/any/deep/path/server.pem"
        (ProtectedPath.mk "*.pem" ProtectionLevel.zeroAccess) = true
  ∧ pathRuleMatches "/home/user" "/any/deep/path.pem/notes.txt"
        (ProtectedPath.mk "*.pem" ProtectionLevel.zeroAccess) = false
  ∧ pathRuleMatches "/home/user" "/d/c.txt"
        (ProtectedPath.mk "ca?*.txt" ProtectionLevel.zeroAccess) = true
  ∧ pathRuleMatches "/home/user" "/any/project/dist/index.js"
        (ProtectedPath.mk "dist/" ProtectionLevel.readOnly) = true := by
  refine ⟨?_, by decide, by decide, by decide, by decide⟩
  induction protectedPaths with
  | nil => rfl
  | cons p rest ih =>
    rw [checkPathProtection_cons, ih]
    by_cases h : pathRuleMatches home filePath p
    · rw [List.find?_cons_of_pos _ (by simpa using h), if_pos h]
    · rw [List.find?_cons_of_neg _ (by simpa using h), if_neg h]

/-! ## Claims about the configuration overlay engine -/

/-- Pattern add list of an overlay, empty when absent. -/
def patAdds (c : DamageControlConfig) : List Pattern :=
  (c.patterns.bind (fun s => s.add)).getD []

/-- Pattern remove list of an overlay, empty when absent. -/
def patRemoves (c : DamageControlConfig) : List String :=
  (c.patterns.bind (fun s => s.remove)).getD []

/-- Pattern override record of an overlay, empty when absent. -/
def patOverride (c : DamageControlConfig) : List (String × Action) :=
  (c.patterns.bind (fun s => s.override)).getD []

/-- Path add list of an overlay, empty when absent. -/
def pathAdds (c : DamageControlConfig) : List ProtectedPath :=
  (c.paths.bind (fun s => s.add)).getD []

/-- Path remove list of an overlay, empty when absent. -/
def pathRemoves (c : DamageControlConfig) : List String :=
  (c.paths.bind (fun s => s.remove)).getD []

/-- Path override record of an overlay, empty when absent. -/
def pathOverride (c : DamageControlConfig) : List (String × LevelOverride) :=
  (c.paths.bind (fun s => s.override)).getD []

/-- Materializing a possibly-empty list and reading it back is the
identity. -/
theorem optList_getD {α : Type} (l : List α) :
    (if l.length > 0 then some l else none).getD [] = l := by
  cases l <;> simp

/-- Unfolding of association-list lookup at a cons cell. -/
theorem lookupStr_cons {α : Type} (k1 : String) (v : α) (rest : List (String × α))
    (k : String) :
    lookupStr ((k1, v) :: rest) k = if k1 == k then some v else lookupStr rest k := by
  by_cases h : k1 == k <;> simp [lookupStr, List.find?_cons, h]

/-- Association-list lookup distributes over append, first list first. -/
theorem lookupStr_append {α : Type} (a b : List (String × α)) (k : String) :
    lookupStr (a ++ b) k = (lookupStr a k).orElse (fun _ => lookupStr b k) := by
  induction a with
  | nil => simp [lookupStr]
  | cons kv rest ih =>
    rw [List.cons_append, show kv = (kv.1, kv.2) from rfl, lookupStr_cons, lookupStr_cons]
    by_cases h : kv.1 == k <;> simp [h, ih]

/-- Lookup in the value-updated copy of a record. -/
theorem lookupStr_mapFst {α : Type} (g p : List (String × α)) (k : String) :
    lookupStr (g.map (fun kv => (kv.1, (lookupStr p kv.1).getD kv.2))) k
      = (lookupStr g k).map (fun v => (lookupStr p k).getD v) := by
  induction g with
  | nil => rfl
  | cons kv rest ih =>
    rw [List.map_cons, lookupStr_cons, show kv = (kv.1, kv.2) from rfl, lookupStr_cons]
    by_cases h : kv.1 == k
    · have hk : kv.1 = k := by simpa using h
      simp [h, hk]
    · simp [h, ih]

/-- Lookup in the keys-not-in-g part of a record. -/
theorem lookupStr_filter_isNone {α : Type} (g p : List (String × α)) (k : String) :
    lookupStr (p.filter (fun kv => (lookupStr g kv.1).isNone)) k
      = if (lookupStr g k).isSome then none else lookupStr p k := by
  induction p with
  | nil => cases hg : lookupStr g k <;> simp [lookupStr, hg]
  | cons kv rest ih =>
    obtain ⟨k1, v1⟩ := kv
    rw [List.filter_cons]
    cases hx : lookupStr g k1
    case none =>
      rw [if_pos (show (Option.isNone (none : Option α)) = true from rfl)]
      rw [lookupStr_cons, lookupStr_cons]
      by_cases h : (k1 == k) = true
      · have hk : k1 = k := by simpa using h
        subst hk
        simp [hx]
      · simp [h, ih]
    case some w =>
      rw [if_neg (show ¬(Option.isNone (some w)) = true by simp)]
      rw [ih, lookupStr_cons]
      by_cases h : (k1 == k) = true
      · have hk : k1 = k := by simpa using h
        subst hk
        simp [hx, h]
      · simp [h]

/-- Lookup in the object-spread merge: the second (project) record wins on
keys present in both, the first (global) record fills the rest. -/
theorem lookupStr_recordMerge {α : Type} (g p : List (String × α)) (k : String) :
    lookupStr (recordMerge g p) k
      = (lookupStr p k).orElse (fun _ => lookupStr g k) := by
  rw [recordMerge, lookupStr_append, lookupStr_mapFst, lookupStr_filter_isNone]
  cases hg : lookupStr g k <;> cases hp : lookupStr p k <;> simp [hg, hp]

/-- Merged pattern add lists concatenate, global first. -/
theorem patAdds_merge (g p : DamageControlConfig) :
    patAdds (mergeConfigs g p) = patAdds g ++ patAdds p := by
  cases hg : g.patterns <;> cases hp : p.patterns <;>
    simp only [mergeConfigs, patAdds, hg, hp, Option.none_bind, Option.some_bind,
      Option.getD_none, optList_getD, List.append_nil, List.nil_append]

/-- Merged pattern remove lists concatenate, global first. -/
theorem patRemoves_merge (g p : DamageControlConfig) :
    patRemoves (mergeConfigs g p) = patRemoves g ++ patRemoves p := by
  cases hg : g.patterns <;> cases hp : p.patterns <;>
    simp only [mergeConfigs, patRemoves, hg, hp, Option.none_bind, Option.some_bind,
      Option.getD_none, optList_getD, List.append_nil, List.nil_append]

/-- Merged pattern override records are the object-spread merge. -/
theorem patOverride_merge (g p : DamageControlConfig) :
    patOverride (mergeConfigs g p) = recordMerge (patOverride g) (patOverride p) := by
  cases hg : g.patterns <;> cases hp : p.patterns <;>
    simp only [mergeConfigs, patOverride, hg, hp, Option.none_bind, Option.some_bind,
      Option.getD_none, optList_getD, List.append_nil, List.nil_append, recordMerge,
      List.map_nil, List.filter_nil]

/-- Merged path add lists concatenate, global first. -/
theorem pathAdds_merge (g p : DamageControlConfig) :
    pathAdds (mergeConfigs g p) = pathAdds g ++ pathAdds p := by
  cases hg : g.paths <;> cases hp : p.paths <;>
    simp only [mergeConfigs, pathAdds, hg, hp, Option.none_bind, Option.some_bind,
      Option.getD_none, optList_getD, List.append_nil, List.nil_append]

/-- Merged path remove lists concatenate, global first. -/
theorem pathRemoves_merge (g p : DamageControlConfig) :
    pathRemoves (mergeConfigs g p) = pathRemoves g ++ pathRemoves p := by
  cases hg : g.paths <;> cases hp : p.paths <;>
    simp only [mergeConfigs, pathRemoves, hg, hp, Option.none_bind, Option.some_bind,
      Option.getD_none, optList_getD, List.append_nil, List.nil_append]

/-- Merged path override records are the object-spread merge. -/
theorem pathOverride_merge (g p : DamageControlConfig) :
    pathOverride (mergeConfigs g p) = recordMerge (pathOverride g) (pathOverride p) := by
  cases hg : g.paths <;> cases hp : p.paths <;>
    simp only [mergeConfigs, pathOverride, hg, hp, Option.none_bind, Option.some_bind,
      Option.getD_none, optList_getD, List.append_nil, List.nil_append, recordMerge,
      List.map_nil, List.filter_nil]

/-- C7: mergeConfigs concatenates the add lists with all global entries
before all project entries, concatenates the remove lists, and
shallow-merges the override records so that a key present in both takes the
project value; in particular a key overridden to ask globally and to block
in the project merges to block. -/
theorem mergeConfigs_spec :
    (∀ g p : DamageControlConfig,
      patAdds (mergeConfigs g p) = patAdds g ++ patAdds p
      ∧ pathAdds (mergeConfigs g p) = pathAdds g ++ pathAdds p
      ∧ patRemoves (mergeConfigs g p) = patRemoves g ++ patRemoves p
      ∧ pathRemoves (mergeConfigs g p) = pathRemoves g ++ pathRemoves p
      ∧ (∀ k, lookupStr (patOverride (mergeConfigs g p)) k
          = (lookupStr (patOverride p) k).orElse (fun _ => lookupStr (patOverride g) k))
      ∧ (∀ k, lookupStr (pathOverride (mergeConfigs g p)) k
          = (lookupStr (pathOverride p) k).orElse (fun _ => lookupStr (pathOverride g) k)))
  ∧ lookupStr (patOverride (mergeConfigs
      (DamageControlConfig.mk (some (PatternsConfig.mk none none (some [("X", Action.ask)]))) none)
      (DamageControlConfig.mk (some (PatternsConfig.mk none none (some [("X", Action.block)]))) none))) "X"
      = some Action.block := by
  refine ⟨fun g p => ⟨patAdds_merge g p, pathAdds_merge g p, patRemoves_merge g p,
    pathRemoves_merge g p, fun k => ?_, fun k => ?_⟩, by decide⟩
  · rw [patOverride_merge, lookupStr_recordMerge]
  · rw [pathOverride_merge, lookupStr_recordMerge]

/-- Filtering by non-membership in the empty remove list keeps every
entry. -/
theorem filter_contains_nil {α : Type} (key : α → String) (l : List α) :
    l.filter (fun p => !(List.contains [] (key p))) = l := by
  induction l with
  | nil => rfl
  | cons a t ih => rw [List.filter_cons]; simp [ih]

/-- Mapping the empty override record over a pattern list is the identity. -/
theorem map_override_nil (l : List Pattern) :
    l.map (fun p => match lookupStr ([] : List (String × Action)) p.reason with
      | some a => Pattern.mk p.pattern p.reason a
      | none => p) = l := by
  induction l with
  | nil => rfl
  | cons a t ih =>
    rw [List.map_cons, ih]
    rfl

/-- Mapping the empty override record over a path list is the identity. -/
theorem filterMap_override_nil (l : List ProtectedPath) :
    l.filterMap (fun p => match lookupStr ([] : List (String × LevelOverride)) p.path with
      | some LevelOverride.remove => none
      | some (LevelOverride.assign lv) => some (ProtectedPath.mk p.path lv)
      | none => some p) = l := by
  induction l with
  | nil => rfl
  | cons a t ih =>
    rw [List.filterMap_cons]
    rw [show (match lookupStr ([] : List (String × LevelOverride)) a.path with
      | some LevelOverride.remove => none
      | some (LevelOverride.assign lv) => some (ProtectedPath.mk a.path lv)
      | none => some a) = some a from rfl]
    rw [ih]

/-- Mapping a function that fixes every member is the identity. -/
theorem map_eq_self_of_mem {α : Type} (f : α → α) (l : List α)
    (h : ∀ a ∈ l, f a = a) : l.map f = l := by
  induction l with
  | nil => rfl
  | cons a t ih =>
    rw [List.map_cons, h a (by simp), ih]
    intro b hb
    exact h b (by simp [hb])

/-- Filter-mapping a function that keeps every member is the identity. -/
theorem filterMap_eq_self_of_mem {α : Type} (f : α → Option α) (l : List α)
    (h : ∀ a ∈ l, f a = some a) : l.filterMap f = l := by
  induction l with
  | nil => rfl
  | cons a t ih =>
    rw [List.filterMap_cons, h a (by simp), ih]
    intro b hb
    exact h b (by simp [hb])

/-- Pattern half of applyConfig as the remove-then-override-then-add
pipeline over the overlay getters. -/
theorem applyConfig_patterns_eq (config : DamageControlConfig) (dps : List Pattern)
    (dpaths : List ProtectedPath) :
    (applyConfig config dps dpaths).patterns
      = ((dps.filter (fun p => !((patRemoves config).contains p.reason))).map
          (fun p => match lookupStr (patOverride config) p.reason with
            | some a => Pattern.mk p.pattern p.reason a
            | none => p)) ++ patAdds config := by
  cases hc : config.patterns
  case none =>
    simp only [applyConfig, hc, patRemoves, patOverride, patAdds, Option.none_bind,
      Option.getD_none, List.append_nil, filter_contains_nil, map_override_nil]
  case some pc =>
    cases hr : pc.remove <;> cases ho : pc.override <;> cases ha : pc.add <;>
      simp only [applyConfig, hc, hr, ho, ha, patRemoves, patOverride, patAdds,
        Option.some_bind, Option.none_bind, Option.getD_none, Option.getD_some,
        List.append_nil, filter_contains_nil, map_override_nil]

/-- Path half of applyConfig as the remove-then-override-then-add pipeline
over the overlay getters, with the none sentinel dropping entries. -/
theorem applyConfig_paths_eq (config : DamageControlConfig) (dps : List Pattern)
    (dpaths : List ProtectedPath) :
    (applyConfig config dps dpaths).paths
      = ((dpaths.filter (fun p => !((pathRemoves config).contains p.path))).filterMap
          (fun p => match lookupStr (pathOverride config) p.path with
            | some LevelOverride.remove => none
            | some (LevelOverride.assign lv) => some (ProtectedPath.mk p.path lv)
            | none => some p)) ++ pathAdds config := by
  cases hc : config.paths
  case none =>
    simp only [applyConfig, hc, pathRemoves, pathOverride, pathAdds, Option.none_bind,
      Option.getD_none, List.append_nil, filter_contains_nil, filterMap_override_nil]
  case some pc =>
    cases hr : pc.remove <;> cases ho : pc.override <;> cases ha : pc.add <;>
      simp only [applyConfig, hc, hr, ho, ha, pathRemoves, pathOverride, pathAdds,
        Option.some_bind, Option.none_bind, Option.getD_none, Option.getD_some,
        List.append_nil, filter_contains_nil, filterMap_override_nil]

/-- C6: applyConfig processes patterns and paths each in the fixed order
remove, then override, then add: entries whose identity key is in the remove
list are dropped first, overrides apply only to the survivors (with a path
override of the none sentinel removing the entry), and add entries are
appended last; consequently a config that removes key X and also overrides
key X produces no entry with key X, and removing or overriding a key absent
from the defaults is a no-op. -/
theorem applyConfig_remove_override_add :
    (∀ (config : DamageControlConfig) (dps : List Pattern) (dpaths : List ProtectedPath),
      (applyConfig config dps dpaths).patterns
        = ((dps.filter (fun p => !((patRemoves config).contains p.reason))).map
            (fun p => match lookupStr (patOverride config) p.reason with
              | some a => Pattern.mk p.pattern p.reason a
              | none => p)) ++ patAdds config
      ∧ (applyConfig config dps dpaths).paths
        = ((dpaths.filter (fun p => !((pathRemoves config).contains p.path))).filterMap
            (fun p => match lookupStr (pathOverride config) p.path with
              | some LevelOverride.remove => none
              | some (LevelOverride.assign lv) => some (ProtectedPath.mk p.path lv)
              | none => some p)) ++ pathAdds config)
  ∧ (∀ (X : String) (v : Action) (dps : List Pattern) (dpaths : List ProtectedPath),
      ((applyConfig (DamageControlConfig.mk
          (some (PatternsConfig.mk none (some [X]) (some [(X, v)]))) none) dps dpaths).patterns.all
        (fun q => !(q.reason == X))) = true)
  ∧ (∀ (X : String) (w : LevelOverride) (dps : List Pattern) (dpaths : List ProtectedPath),
      ((applyConfig (DamageControlConfig.mk none
          (some (PathsConfig.mk none (some [X]) (some [(X, w)])))) dps dpaths).paths.all
        (fun q => !(q.path == X))) = true)
  ∧ (∀ (X : String) (dps : List Pattern) (dpaths : List ProtectedPath),
      dps.all (fun p => !(p.reason == X)) = true →
      applyConfig (DamageControlConfig.mk
          (some (PatternsConfig.mk none (some [X]) none)) none) dps dpaths
        = EffectiveRuleSet.mk dps dpaths)
  ∧ (∀ (X : String) (v : Action) (dps : List Pattern) (dpaths : List ProtectedPath),
      dps.all (fun p => !(p.reason == X)) = true →
      applyConfig (DamageControlConfig.mk
          (some (PatternsConfig.mk none none (some [(X, v)]))) none) dps dpaths
        = EffectiveRuleSet.mk dps dpaths)
  ∧ (∀ (X : String) (dps : List Pattern) (dpaths : List ProtectedPath),
      dpaths.all (fun p => !(p.path == X)) = true →
      applyConfig (DamageControlConfig.mk none
          (some (PathsConfig.mk none (some [X]) none))) dps dpaths
        = EffectiveRuleSet.mk dps dpaths)
  ∧ (∀ (X : String) (w : LevelOverride) (dps : List Pattern) (dpaths : List ProtectedPath),
      dpaths.all (fun p => !(p.path == X)) = true →
      applyConfig (DamageControlConfig.mk none
          (some (PathsConfig.mk none none (some [(X, w)])))) dps dpaths
        = EffectiveRuleSet.mk dps dpaths) := by
  refine ⟨fun config dps dpaths =>
      ⟨applyConfig_patterns_eq config dps dpaths, applyConfig_paths_eq config dps dpaths⟩,
    ?_, ?_, ?_, ?_, ?_, ?_⟩
  · intro X v dps dpaths
    rw [applyConfig_patterns_eq]
    show ((dps.filter (fun (p : Pattern) => !(List.contains [X] p.reason))).map
        (fun (p : Pattern) => match lookupStr [(X, v)] p.reason with
          | some a => Pattern.mk p.pattern p.reason a
          | none => p) ++ ([] : List Pattern)).all (fun q => !(q.reason == X)) = true
    rw [List.append_nil]
    apply List.all_eq_true.mpr
    intro q hq
    rcases List.mem_map.mp hq with ⟨p, hp, hpq⟩
    rcases List.mem_filter.mp hp with ⟨_, hcond⟩
    have hrX : (p.reason == X) = false := by
      cases hbe : p.reason == X
      · rfl
      · exfalso
        have hcc : List.contains [X] p.reason = true := by
          simp [List.contains, List.elem, hbe]
        rw [hcc] at hcond
        simp at hcond
    cases hlk : lookupStr [(X, v)] p.reason <;> rw [hlk] at hpq <;> subst hpq <;>
      simp [hrX]
  · intro X w dps dpaths
    rw [applyConfig_paths_eq]
    show ((dpaths.filter (fun (p : ProtectedPath) => !(List.contains [X] p.path))).filterMap
        (fun (p : ProtectedPath) => match lookupStr [(X, w)] p.path with
          | some LevelOverride.remove => none
          | some (LevelOverride.assign lv) => some (ProtectedPath.mk p.path lv)
          | none => some p) ++ ([] : List ProtectedPath)).all (fun q => !(q.path == X)) = true
    rw [List.append_nil]
    apply List.all_eq_true.mpr
    intro q hq
    rcases List.mem_filterMap.mp hq with ⟨p, hp, hpq⟩
    rcases List.mem_filter.mp hp with ⟨_, hcond⟩
    have hrX : (p.path == X) = false := by
      cases hbe : p.path == X
      · rfl
      · exfalso
        have hcc : List.contains [X] p.path = true := by
          simp [List.contains, List.elem, hbe]
        rw [hcc] at hcond
        simp at hcond
    cases hlk : lookupStr [(X, w)] p.path
    · rw [hlk] at hpq
      simp only [Option.some.injEq] at hpq
      subst hpq
      simp [hrX]
    · rw [hlk] at hpq
      rename_i lv
      cases lv
      case assign l =>
        simp only [Option.some.injEq] at hpq
        subst hpq
        simp [hrX]
      case remove =>
        simp at hpq
  · intro X dps dpaths h
    have hall := List.all_eq_true.mp h
    show EffectiveRuleSet.mk (dps.filter (fun p => !(List.contains [X] p.reason))) dpaths
      = EffectiveRuleSet.mk dps dpaths
    rw [List.filter_eq_self.mpr]
    intro a ha
    have := hall a ha
    simp_all [List.contains]
  · intro X v dps dpaths h
    have hall := List.all_eq_true.mp h
    show EffectiveRuleSet.mk (dps.map (fun p =>
        match lookupStr [(X, v)] p.reason with
        | some a => Pattern.mk p.pattern p.reason a
        | none => p)) dpaths
      = EffectiveRuleSet.mk dps dpaths
    rw [map_eq_self_of_mem]
    intro a ha
    have hne := hall a ha
    have : (X == a.reason) = false := by
      simp only [Bool.not_eq_true'] at hne
      rw [beq_eq_false_iff_ne] at hne ⊢
      exact fun e => hne e.symm
    rw [lookupStr_cons, if_neg (by simp [this])]
    rfl
  · intro X dps dpaths h
    have hall := List.all_eq_true.mp h
    show EffectiveRuleSet.mk dps (dpaths.filter (fun p => !(List.contains [X] p.path)))
      = EffectiveRuleSet.mk dps dpaths
    rw [List.filter_eq_self.mpr]
    intro a ha
    have := hall a ha
    simp_all [List.contains]
  · intro X w dps dpaths h
    have hall := List.all_eq_true.mp h
    show EffectiveRuleSet.mk dps (dpaths.filterMap (fun p =>
        match lookupStr [(X, w)] p.path with
        | some LevelOverride.remove => none
        | some (LevelOverride.assign lv) => some (ProtectedPath.mk p.path lv)
        | none => some p))
      = EffectiveRuleSet.mk dps dpaths
    rw [filterMap_eq_self_of_mem]
    intro a ha
    have hne := hall a ha
    have : (X == a.path) = false := by
      simp only [Bool.not_eq_true'] at hne
      rw [beq_eq_false_iff_ne] at hne ⊢
      exact fun e => hne e.symm
    rw [lookupStr_cons, if_neg (by simp [this])]
    rfl

/-- Witness instantiating the hypothesis-bearing no-op conjuncts of C6 at
concrete inputs. -/
theorem applyConfig_remove_override_add_witness :
    applyConfig (DamageControlConfig.mk
        (some (PatternsConfig.mk none (some ["X"]) none)) none)
        [Pattern.mk "a" "A" Action.block] [ProtectedPath.mk "q/" ProtectionLevel.readOnly]
      = EffectiveRuleSet.mk [Pattern.mk "a" "A" Action.block]
          [ProtectedPath.mk "q/" ProtectionLevel.readOnly]
  ∧ applyConfig (DamageControlConfig.mk
        (some (PatternsConfig.mk none none (some [("X", Action.ask)]))) none)
        [Pattern.mk "a" "A" Action.block] []
      = EffectiveRuleSet.mk [Pattern.mk "a" "A" Action.block] []
  ∧ applyConfig (DamageControlConfig.mk none
        (some (PathsConfig.mk none (some ["X"]) none)))
        [] [ProtectedPath.mk "q/" ProtectionLevel.readOnly]
      = EffectiveRuleSet.mk [] [ProtectedPath.mk "q/" ProtectionLevel.readOnly]
  ∧ applyConfig (DamageControlConfig.mk none
        (some (PathsConfig.mk none none (some [("X", LevelOverride.remove)]))))
        [] [ProtectedPath.mk "q/" ProtectionLevel.readOnly]
      = EffectiveRuleSet.mk [] [ProtectedPath.mk "q/" ProtectionLevel.readOnly] :=
  ⟨applyConfig_remove_override_add.2.2.2.1 "X"
      [Pattern.mk "a" "A" Action.block] [ProtectedPath.mk "q/" ProtectionLevel.readOnly]
      (by decide),
   applyConfig_remove_override_add.2.2.2.2.1 "X" Action.ask
      [Pattern.mk "a" "A" Action.block] [] (by decide),
   applyConfig_remove_override_add.2.2.2.2.2.1 "X"
      [] [ProtectedPath.mk "q/" ProtectionLevel.readOnly] (by decide),
   applyConfig_remove_override_add.2.2.2.2.2.2 "X" LevelOverride.remove
      [] [ProtectedPath.mk "q/" ProtectionLevel.readOnly] (by decide)⟩

/-- Object test as the validator performs it (an array and null are not
objects). -/
def isObjectV : JValue → Bool
  | JValue.obj _ => true
  | _ => false

/-- Top-level keys recognized by the validator. -/
def recognizedKey (k : String) : Bool :=
  k == "patterns" || k == "paths" || k == "$schema"

/-- Warning text emitted for an unknown top-level key. -/
def unknownKeyWarning (source k : String) : String :=
  source ++ ": unknown key \"" ++ k ++ "\", ignoring"

/-- Membership gives a positive contains test. -/
theorem contains_of_mem {α : Type} [BEq α] [LawfulBEq α] {a : α} {l : List α}
    (h : a ∈ l) : l.contains a = true := by
  induction l with
  | nil => cases h
  | cons b t ih =>
    rcases List.mem_cons.mp h with h1 | h2
    · subst h1
      simp [List.contains_cons]
    · rw [List.contains_cons, ih h2]
      simp

/-- Filtering by a key predicate preserves lookups of keys the predicate
accepts. -/
theorem lookupStr_filter_pred {α : Type} (pred : String → Bool)
    (l : List (String × α)) (k : String) (hk : pred k = true) :
    lookupStr (l.filter (fun kv => pred kv.1)) k = lookupStr l k := by
  induction l with
  | nil => rfl
  | cons kv rest ih =>
    obtain ⟨k1, v1⟩ := kv
    rw [List.filter_cons]
    by_cases h : (k1 == k) = true
    · have hk1 : k1 = k := by simpa using h
      subst hk1
      rw [if_pos (show pred (k1, v1).1 = true from hk)]
      rw [lookupStr_cons, lookupStr_cons, if_pos h, if_pos h]
    · cases hp : pred k1
      · rw [if_neg (show ¬((false : Bool) = true) from by simp)]
        rw [ih, lookupStr_cons, if_neg h]
      · rw [if_pos (show (true : Bool) = true from rfl)]
        rw [lookupStr_cons, lookupStr_cons, if_neg h, if_neg h, ih]

/-- C8: validateConfig never fails and returns a best-effort overlay plus
warnings: a non-object top level yields the empty overlay and exactly one
warning; every unrecognized top-level key yields a warning naming it while
its value is ignored (the resulting overlay depends only on the patterns and
paths entries); and an override entry with an unrecognized action is dropped
with a warning mentioning the invalid value, so the concrete overlay with
action not-a-real-action validates to a patterns section with no overrides
and a warning mentioning that value. -/
theorem validateConfig_best_effort :
    (∀ (raw : JValue) (source : String), isObjectV raw = false →
      validateConfig raw source
        = (emptyConfig, [source ++ ": config is not an object, ignoring"]))
  ∧ (∀ (fields : List (String × JValue)) (source : String),
      ((fields.filter (fun kv => !(recognizedKey kv.1))).all
        (fun kv => (validateConfig (JValue.obj fields) source).2.contains
          (unknownKeyWarning source kv.1))) = true)
  ∧ (∀ (fields : List (String × JValue)) (source : String),
      (validateConfig (JValue.obj fields) source).1
        = (validateConfig (JValue.obj (fields.filter
            (fun kv => kv.1 == "patterns" || kv.1 == "paths"))) source).1)
  ∧ ((validateConfig (JValue.obj [("patterns", JValue.obj [("override",
        JValue.obj [("X", JValue.str "not-a-real-action")])])]) "cfg").1
      = DamageControlConfig.mk (some (PatternsConfig.mk none none none)) none
     ∧ ((validateConfig (JValue.obj [("patterns", JValue.obj [("override",
        JValue.obj [("X", JValue.str "not-a-real-action")])])]) "cfg").2.any
          (fun w => jsIncludes w "not-a-real-action")) = true) := by
  refine ⟨?_, ?_, ?_, by decide, by decide⟩
  · intro raw source h
    cases raw
    case obj fields => simp [isObjectV] at h
    all_goals rfl
  · intro fields source
    apply List.all_eq_true.mpr
    intro kv hkv
    rcases List.mem_filter.mp hkv with ⟨hmem, hcond⟩
    have hrec : recognizedKey kv.1 = false := by
      cases hx : recognizedKey kv.1
      · rfl
      · rw [hx] at hcond; simp at hcond
    have hw : unknownKeyWarning source kv.1 ∈ fields.filterMap (fun kv =>
        if kv.1 == "patterns" || kv.1 == "paths" || kv.1 == "$schema" then none
        else some (source ++ ": unknown key \"" ++ kv.1 ++ "\", ignoring")) := by
      apply List.mem_filterMap.mpr
      refine ⟨kv, hmem, ?_⟩
      rw [if_neg (show ¬((kv.1 == "patterns" || kv.1 == "paths" || kv.1 == "$schema") = true)
        from by rw [show (kv.1 == "patterns" || kv.1 == "paths" || kv.1 == "$schema")
          = recognizedKey kv.1 from rfl, hrec]; simp)]
      rfl
    exact contains_of_mem (List.mem_append_right _ hw)
  · intro fields source
    have h1 : jsGet (fields.filter (fun kv => kv.1 == "patterns" || kv.1 == "paths"))
        "patterns" = jsGet fields "patterns" :=
      lookupStr_filter_pred (fun x => x == "patterns" || x == "paths") fields
        "patterns" (by decide)
    have h2 : jsGet (fields.filter (fun kv => kv.1 == "patterns" || kv.1 == "paths"))
        "paths" = jsGet fields "paths" :=
      lookupStr_filter_pred (fun x => x == "patterns" || x == "paths") fields
        "paths" (by decide)
    show DamageControlConfig.mk
        (validatePatternsSection source (jsGet fields "patterns")).1
        (validatePathsSection source (jsGet fields "paths")).1
      = DamageControlConfig.mk
        (validatePatternsSection source (jsGet (fields.filter
          (fun kv => kv.1 == "patterns" || kv.1 == "paths")) "patterns")).1
        (validatePathsSection source (jsGet (fields.filter
          (fun kv => kv.1 == "patterns" || kv.1 == "paths")) "paths")).1
    rw [h1, h2]

/-- Witness instantiating the hypothesis-bearing conjunct of C8 at a
concrete non-object input. -/
theorem validateConfig_best_effort_witness :
    isObjectV (JValue.str "zap") = false
  ∧ validateConfig (JValue.str "zap") "cfg"
      = (emptyConfig, ["cfg: config is not an object, ignoring"]) :=
  ⟨by decide, validateConfig_best_effort.1 (JValue.str "zap") "cfg" (by decide)⟩

end DamageControl
